import Mathlib

/-!
Verification development for the parchii ticket system.

This file gives a shallow embedding of the core of the repository:
the QR payload codec (`src/lib/qr/qrGenerator.ts`), the gate verify
endpoint (`src/app/api/gate/verify/route.ts`), the gate scan endpoint
(`app/api/gate/scan/route.ts`), and the ticket lookup endpoint
(`src/app/api/tickets/by-qr/route.ts`), together with proofs about them.

JavaScript values that flow through `JSON.parse` / `JSON.stringify`
are modelled by an explicit `Json` inductive; JS numbers are modelled
as rationals (enough to capture integer-versus-fractional and
comparison behaviour on the values these endpoints handle); `Date.now()`
and generated record ids are passed in as explicit parameters.
-/

namespace Parchii

/-- Model of a JavaScript/JSON value as produced by `JSON.parse`.
Numbers are modelled as rationals. -/
inductive Json where
  | jnull : Json
  | jbool (b : Bool) : Json
  | jnum (q : Rat) : Json
  | jstr (s : List Char) : Json
  | jarr (elems : List Json) : Json
  | jobj (members : List (List Char × Json)) : Json
deriving Repr

/-- JavaScript truthiness of a value (`!x` in the source negates this).
`null`, `false`, `0` and `""` are falsy; arrays and objects are truthy. -/
def Json.truthy : Json → Bool
  | .jnull => false
  | .jbool b => b
  | .jnum q => q != 0
  | .jstr s => !s.isEmpty
  | .jarr _ => true
  | .jobj _ => true

/-- JS strict equality test `x === 1` used by the version checks. -/
def Json.isOne : Json → Bool
  | .jnum q => q == 1
  | _ => false

/-- JS property access `obj.k`: `none` models `undefined` (non-objects have
no own properties; for duplicate keys `JSON.parse` keeps the last one). -/
def Json.get? : Json → List Char → Option Json
  | .jobj members, k => (members.reverse.find? (fun m => m.1 = k)).map (·.2)
  | _, _ => none

/-- JS `obj?.k ?? …`: both `undefined` (absent) and `null` move on to the
next alternative of the nullish-coalescing chain. -/
def Json.getNN (j : Json) (k : List Char) : Option Json :=
  match j.get? k with
  | some .jnull => none
  | r => r

/-- Truthiness of an optional value (absent = `undefined` = falsy). -/
def otruthy (o : Option Json) : Bool :=
  (o.map Json.truthy).getD false

/-! ## Characters and digits -/

/-- The opening curly brace character. -/
def lbrace : Char := Char.ofNat 0x7B

/-- The closing curly brace character. -/
def rbrace : Char := Char.ofNat 0x7D

/-- Numeric value of a decimal digit character. -/
def digitVal (c : Char) : Nat := c.toNat - '0'.toNat

/-- Value of a big-endian run of decimal digit characters. -/
def digitsVal (l : List Char) : Nat := l.foldl (fun a c => a * 10 + digitVal c) 0

/-- The sixteen lowercase hex digit characters, as emitted by Node's
`digest('hex')` and by `JSON.stringify` unicode escapes. -/
def hexChars : List Char := "0123456789abcdef".data

/-- Lowercase hex digit character for a nibble. -/
def nibbleChar (n : Nat) : Char := hexChars.getD (n % 16) '0'

/-- Hex value of a hex digit character (upper or lower case), if any. -/
def hexVal (c : Char) : Option Nat :=
  if c.isDigit then some (digitVal c)
  else if 'a' ≤ c ∧ c ≤ 'f' then some (c.toNat - 'a'.toNat + 10)
  else if 'A' ≤ c ∧ c ≤ 'F' then some (c.toNat - 'A'.toNat + 10)
  else none

/-- Decimal digit characters of a natural number, most significant first;
`String(n)` / template-literal formatting of a nonnegative JS integer. -/
def natChars (n : Nat) : List Char :=
  if n = 0 then ['0'] else (Nat.digits 10 n).reverse.map nibbleChar

/-- Template-literal formatting of a JS integer (`${n}`), signed. -/
def intChars (i : Int) : List Char :=
  if i < 0 then '-' :: natChars i.natAbs else natChars i.natAbs

/-! ## JSON text: whitespace, strings, numbers -/

/-- The JSON whitespace characters skipped by `JSON.parse`. -/
def isJsonWs (c : Char) : Bool :=
  c = ' ' ∨ c = '\t' ∨ c = '\n' ∨ c = '\r'

/-- Skip leading JSON whitespace. -/
def skipWs (s : List Char) : List Char := s.dropWhile isJsonWs

/-- Unicode scalar for a codepoint when valid, else U+FFFD (JS lone
surrogates have no counterpart among Unicode scalar values). -/
def scalarChar (v : Nat) : Char :=
  if v < 0x110000 ∧ ¬(0xD800 ≤ v ∧ v ≤ 0xDFFF) then Char.ofNat v
  else Char.ofNat 0xFFFD

/-- Parse the body of a JSON string literal after the opening quote,
returning the decoded characters and the input after the closing quote.
Mirrors `JSON.parse`: raw control characters are rejected, the escapes
`\" \\ \/ \b \f \n \r \t \uXXXX` are decoded. -/
def parseStringBody : List Char → Option (List Char × List Char)
  | [] => none
  | c :: rest =>
    if c = '"' then some ([], rest)
    else if c = '\\' then
      match rest with
      | [] => none
      | e :: r =>
        if e = '"' then (parseStringBody r).map (fun p => ('"' :: p.1, p.2))
        else if e = '\\' then (parseStringBody r).map (fun p => ('\\' :: p.1, p.2))
        else if e = '/' then (parseStringBody r).map (fun p => ('/' :: p.1, p.2))
        else if e = 'b' then (parseStringBody r).map (fun p => (Char.ofNat 0x08 :: p.1, p.2))
        else if e = 'f' then (parseStringBody r).map (fun p => (Char.ofNat 0x0C :: p.1, p.2))
        else if e = 'n' then (parseStringBody r).map (fun p => ('\n' :: p.1, p.2))
        else if e = 'r' then (parseStringBody r).map (fun p => (Char.ofNat 0x0D :: p.1, p.2))
        else if e = 't' then (parseStringBody r).map (fun p => ('\t' :: p.1, p.2))
        else if e = 'u' then
          match r with
          | h1 :: h2 :: h3 :: h4 :: r2 =>
            match hexVal h1, hexVal h2, hexVal h3, hexVal h4 with
            | some v1, some v2, some v3, some v4 =>
              (parseStringBody r2).map (fun p =>
                (scalarChar (((v1 * 16 + v2) * 16 + v3) * 16 + v4) :: p.1, p.2))
            | _, _, _, _ => none
          | _ => none
        else none
    else if c.toNat < 0x20 then none
    else (parseStringBody rest).map (fun p => (c :: p.1, p.2))

/-- Parse a JSON number (JSON grammar: optional minus, integer part with
no leading zero, optional fraction, optional exponent), as a rational. -/
def parseNumber (s : List Char) : Option (Rat × List Char) :=
  let s1 := if s.head? = some '-' then s.tail else s
  let intPart := s1.takeWhile Char.isDigit
  let s2 := s1.dropWhile Char.isDigit
  if intPart.isEmpty then none
  else if intPart.head? = some '0' ∧ intPart.length ≠ 1 then none
  else
    let base : Rat := (digitsVal intPart : Nat)
    let withFrac : Option (Rat × List Char) :=
      if s2.head? = some '.' then
        let r := s2.tail
        let fracPart := r.takeWhile Char.isDigit
        if fracPart.isEmpty then none
        else some (base + (digitsVal fracPart : Nat) / ((10 : Rat) ^ fracPart.length),
                   r.dropWhile Char.isDigit)
      else some (base, s2)
    match withFrac with
    | none => none
    | some (v, s3) =>
      let withExp : Option (Rat × List Char) :=
        if s3.head? = some 'e' ∨ s3.head? = some 'E' then parseExponent v s3.tail
        else some (v, s3)
      match withExp with
      | none => none
      | some (v', s4) => some (if s.head? = some '-' then -v' else v', s4)
where
  /-- Parse the exponent digits (with optional sign) and scale the value. -/
  parseExponent (v : Rat) (r : List Char) : Option (Rat × List Char) :=
    let r1 := if r.head? = some '+' ∨ r.head? = some '-' then r.tail else r
    let expPart := r1.takeWhile Char.isDigit
    if expPart.isEmpty then none
    else
      let e := digitsVal expPart
      some (if r.head? = some '-' then v / ((10 : Rat) ^ e) else v * ((10 : Rat) ^ e),
            r1.dropWhile Char.isDigit)

/-! ## JSON value parser

A single fuel-indexed function handles values, object member lists and
array element lists, so that the recursion is structural on the fuel and
kernel reduction works on concrete inputs. -/

/-- What the parser is asked to produce next. -/
inductive PMode where
  | value : PMode
  | members : PMode
  | elems : PMode

/-- A parser intermediate result. -/
inductive PRes where
  | val (j : Json) : PRes
  | mems (l : List (List Char × Json)) : PRes
  | els (l : List Json) : PRes

/-- Fuel-indexed JSON parser. In `members` / `elems` mode the input starts
just after the opening brace / bracket (or after a comma). -/
def parseP : Nat → PMode → List Char → Option (PRes × List Char)
  | 0, _, _ => none
  | fuel + 1, .value, s =>
    match skipWs s with
    | [] => none
    | c :: rest =>
      if c = '"' then
        (parseStringBody rest).map (fun p => (.val (.jstr p.1), p.2))
      else if c = 't' then
        if rest.take 3 = ['r', 'u', 'e'] then some (.val (.jbool true), rest.drop 3) else none
      else if c = 'f' then
        if rest.take 4 = ['a', 'l', 's', 'e'] then some (.val (.jbool false), rest.drop 4)
        else none
      else if c = 'n' then
        if rest.take 3 = ['u', 'l', 'l'] then some (.val .jnull, rest.drop 3) else none
      else if c = lbrace then
        match parseP fuel .members rest with
        | some (.mems l, r) => some (.val (.jobj l), r)
        | _ => none
      else if c = '[' then
        match parseP fuel .elems rest with
        | some (.els l, r) => some (.val (.jarr l), r)
        | _ => none
      else
        (parseNumber (c :: rest)).map (fun p => (.val (.jnum p.1), p.2))
  | fuel + 1, .members, s =>
    match skipWs s with
    | [] => none
    | c :: rest =>
      if c = rbrace then some (.mems [], rest)
      else if c = '"' then
        match parseStringBody rest with
        | none => none
        | some (key, afterKey) =>
          match skipWs afterKey with
          | [] => none
          | c1 :: afterColon =>
            if c1 = ':' then
              match parseP fuel .value afterColon with
              | some (.val v, afterVal) =>
                match skipWs afterVal with
                | [] => none
                | c2 :: after2 =>
                  if c2 = ',' then
                    -- a comma must be followed by another member, not `}`
                    match skipWs after2 with
                    | c3 :: _ =>
                      if c3 = '"' then
                        match parseP fuel .members after2 with
                        | some (.mems l, r) => some (.mems ((key, v) :: l), r)
                        | _ => none
                      else none
                    | [] => none
                  else if c2 = rbrace then some (.mems [(key, v)], after2)
                  else none
              | _ => none
            else none
      else none
  | fuel + 1, .elems, s =>
    match skipWs s with
    | [] => none
    | c :: _ =>
      if c = ']' then some (.els [], (skipWs s).tail)
      else
        match parseP fuel .value s with
        | some (.val v, afterVal) =>
          match skipWs afterVal with
          | [] => none
          | c2 :: after2 =>
            if c2 = ',' then
              -- a comma must be followed by another element, not `]`
              match skipWs after2 with
              | c3 :: _ =>
                if c3 = ']' then none
                else
                  match parseP fuel .elems after2 with
                  | some (.els l, r) => some (.els (v :: l), r)
                  | _ => none
              | [] => none
            else if c2 = ']' then some (.els [v], after2)
            else none
        | _ => none

/-- `JSON.parse`: parse one value and require only whitespace after it. -/
def jsonParse (s : List Char) : Option Json :=
  match parseP (s.length + 1) .value s with
  | some (.val j, rest) => if (skipWs rest).isEmpty then some j else none
  | _ => none

/-! ## JSON serialization (`JSON.stringify` for the payload shape) -/

/-- `JSON.stringify` escaping of one string character: quote and backslash
are escaped, control characters get their short escapes or `\u00XX`,
everything else is emitted verbatim. -/
def escapeChar (c : Char) : List Char :=
  if c = '"' then ['\\', '"']
  else if c = '\\' then ['\\', '\\']
  else if c = Char.ofNat 0x08 then ['\\', 'b']
  else if c = '\t' then ['\\', 't']
  else if c = '\n' then ['\\', 'n']
  else if c = Char.ofNat 0x0C then ['\\', 'f']
  else if c = Char.ofNat 0x0D then ['\\', 'r']
  else if c.toNat < 0x20 then
    ['\\', 'u', '0', '0', nibbleChar (c.toNat / 16), nibbleChar c.toNat]
  else [c]

/-- `JSON.stringify` escaping of a whole string body. -/
def jsonEscape (s : List Char) : List Char := s.flatMap escapeChar

/-- `JSON.stringify` of a string value, including the surrounding quotes. -/
def jsonStringLit (s : List Char) : List Char :=
  '"' :: jsonEscape s ++ ['"']

/-- `JSON.stringify({v: 1, e, t, a, ts, c})` — serialization of the QR
payload object, keys in insertion order, no added whitespace. -/
def serializePayload (e : List Char) (t : Nat) (a : List Char) (ts : Nat)
    (c : List Char) : List Char :=
  lbrace :: "\"v\":1,\"e\":".data ++ jsonStringLit e
    ++ ",\"t\":".data ++ natChars t
    ++ ",\"a\":".data ++ jsonStringLit a
    ++ ",\"ts\":".data ++ natChars ts
    ++ ",\"c\":".data ++ jsonStringLit c ++ [rbrace]

/-- The `Json` value that `JSON.parse` gives back for a serialized payload. -/
def payloadJson (e : List Char) (t : Nat) (a : List Char) (ts : Nat)
    (c : List Char) : Json :=
  .jobj [(['v'], .jnum 1), (['e'], .jstr e), (['t'], .jnum t),
         (['a'], .jstr a), (['t', 's'], .jnum ts), (['c'], .jstr c)]

/-! ## UTF-8 -/

/-- UTF-8 encoding of one Unicode scalar value, as a byte list. -/
def utf8EncodeChar (c : Char) : List Nat :=
  let v := c.toNat
  if v < 0x80 then [v]
  else if v < 0x800 then [0xC0 + v / 64, 0x80 + v % 64]
  else if v < 0x10000 then [0xE0 + v / 4096, 0x80 + v / 64 % 64, 0x80 + v % 64]
  else [0xF0 + v / 262144, 0x80 + v / 4096 % 64, 0x80 + v / 64 % 64, 0x80 + v % 64]

/-- UTF-8 encoding of a character sequence. -/
def utf8Encode (s : List Char) : List Nat := s.flatMap utf8EncodeChar

/-- Is a byte a UTF-8 continuation byte? -/
def isCont (b : Nat) : Bool := 0x80 ≤ b ∧ b ≤ 0xBF

/-- One step of lossy UTF-8 decoding on a nonempty byte list: the decoded
character (U+FFFD on an invalid sequence) and the unconsumed bytes. -/
def utf8Step : Nat → List Nat → Char × List Nat := fun b0 rest =>
  if b0 < 0x80 then (scalarChar b0, rest)
  else if 0xC0 ≤ b0 ∧ b0 ≤ 0xDF then
    match rest with
    | b1 :: r2 =>
      if isCont b1 then (scalarChar ((b0 - 0xC0) * 64 + (b1 - 0x80)), r2)
      else (Char.ofNat 0xFFFD, rest)
    | [] => (Char.ofNat 0xFFFD, [])
  else if 0xE0 ≤ b0 ∧ b0 ≤ 0xEF then
    match rest with
    | b1 :: b2 :: r2 =>
      if isCont b1 ∧ isCont b2 then
        (scalarChar ((b0 - 0xE0) * 4096 + (b1 - 0x80) * 64 + (b2 - 0x80)), r2)
      else (Char.ofNat 0xFFFD, rest)
    | _ => (Char.ofNat 0xFFFD, [])
  else if 0xF0 ≤ b0 ∧ b0 ≤ 0xF7 then
    match rest with
    | b1 :: b2 :: b3 :: r2 =>
      if isCont b1 ∧ isCont b2 ∧ isCont b3 then
        (scalarChar ((b0 - 0xF0) * 262144 + (b1 - 0x80) * 4096 + (b2 - 0x80) * 64 + (b3 - 0x80)), r2)
      else (Char.ofNat 0xFFFD, rest)
    | _ => (Char.ofNat 0xFFFD, [])
  else (Char.ofNat 0xFFFD, rest)

/-- Fuel-indexed driver for lossy UTF-8 decoding. -/
def utf8Go : Nat → List Nat → List Char
  | 0, _ => []
  | _ + 1, [] => []
  | fuel + 1, b0 :: rest =>
    let s := utf8Step b0 rest
    s.1 :: utf8Go fuel s.2

/-- Lossy UTF-8 decoding as performed by `TextDecoder` / `Buffer.toString`:
never fails, substituting U+FFFD for invalid sequences. (The model accepts
some non-shortest forms that a strict WHATWG decoder would replace; the
endpoints never depend on those inputs.) -/
def utf8DecodeLossy (l : List Nat) : List Char := utf8Go l.length l

/-- One step of strict UTF-8 decoding: `none` on an invalid sequence. -/
def utf8StepStrict : Nat → List Nat → Option (Char × List Nat) := fun b0 rest =>
  if b0 < 0x80 then some (scalarChar b0, rest)
  else if 0xC2 ≤ b0 ∧ b0 ≤ 0xDF then
    match rest with
    | b1 :: r2 =>
      if isCont b1 then some (scalarChar ((b0 - 0xC0) * 64 + (b1 - 0x80)), r2) else none
    | [] => none
  else if 0xE0 ≤ b0 ∧ b0 ≤ 0xEF then
    match rest with
    | b1 :: b2 :: r2 =>
      if isCont b1 ∧ isCont b2 then
        some (scalarChar ((b0 - 0xE0) * 4096 + (b1 - 0x80) * 64 + (b2 - 0x80)), r2)
      else none
    | _ => none
  else if 0xF0 ≤ b0 ∧ b0 ≤ 0xF4 then
    match rest with
    | b1 :: b2 :: b3 :: r2 =>
      if isCont b1 ∧ isCont b2 ∧ isCont b3 then
        some (scalarChar ((b0 - 0xF0) * 262144 + (b1 - 0x80) * 4096 + (b2 - 0x80) * 64 + (b3 - 0x80)), r2)
      else none
    | _ => none
  else none

/-- Fuel-indexed driver for strict UTF-8 decoding. -/
def utf8GoStrict : Nat → List Nat → Option (List Char)
  | 0, _ => none
  | _ + 1, [] => some []
  | fuel + 1, b0 :: rest =>
    match utf8StepStrict b0 rest with
    | none => none
    | some (c, r) => (utf8GoStrict fuel r).map (c :: ·)

/-- Strict UTF-8 decoding (fails on invalid sequences), as thrown by
`decodeURIComponent` for malformed percent escapes. -/
def utf8DecodeStrict (l : List Nat) : Option (List Char) := utf8GoStrict (l.length + 1) l

/-! ## Base64 / base64url -/

/-- The base64url alphabet in index order. -/
def b64Table : List Char :=
  ("ABCDEFGHIJKLMNOPQRSTUVWXYZabcdefghijklmnopqrstuvwxyz0123456789-_").data

/-- Character for a 6-bit group (base64url alphabet, as `jose` emits). -/
def b64Char (v : Nat) : Char := b64Table.getD (v % 64) 'A'

/-- Index of a base64 character; both the standard (`+ /`) and the url
(`- _`) alphabets are accepted, as Node's forgiving decoder does. -/
def b64Val (c : Char) : Option Nat :=
  if 'A' ≤ c ∧ c ≤ 'Z' then some (c.toNat - 'A'.toNat)
  else if 'a' ≤ c ∧ c ≤ 'z' then some (c.toNat - 'a'.toNat + 26)
  else if c.isDigit then some (c.toNat - '0'.toNat + 52)
  else if c = '+' ∨ c = '-' then some 62
  else if c = '/' ∨ c = '_' then some 63
  else none

/-- Unpadded base64url encoding of a byte list (`jose`'s `base64url.encode`). -/
def b64urlEncode : List Nat → List Char
  | [] => []
  | [a] => [b64Char (a / 4), b64Char (a % 4 * 16)]
  | [a, b] => [b64Char (a / 4), b64Char (a % 4 * 16 + b / 16), b64Char (b % 16 * 4)]
  | a :: b :: c :: rest =>
    b64Char (a / 4) :: b64Char (a % 4 * 16 + b / 16) :: b64Char (b % 16 * 4 + c / 64)
      :: b64Char (c % 64) :: b64urlEncode rest

/-- Regroup 6-bit values into bytes; a lone trailing value is dropped,
matching Node's forgiving base64 decoder. -/
def b64Regroup : List Nat → List Nat
  | v0 :: v1 :: v2 :: v3 :: rest =>
    (v0 * 4 + v1 / 16) :: (v1 % 16 * 16 + v2 / 4) :: (v2 % 4 * 64 + v3) :: b64Regroup rest
  | [v0, v1] => [v0 * 4 + v1 / 16]
  | [v0, v1, v2] => [v0 * 4 + v1 / 16, v1 % 16 * 16 + v2 / 4]
  | _ => []

/-- Forgiving base64 decoding (`Buffer.from(s, 'base64')`): characters
outside the alphabet — including `=` padding — are ignored. -/
def b64ForgivingDecode (s : List Char) : List Nat :=
  b64Regroup (s.filterMap b64Val)

/-! ## SHA-256 (`crypto.createHash('sha256')`)

A byte-list implementation with `Nat` arithmetic reduced mod `2^32`. -/

/-- 32-bit addition. -/
def add32 (a b : Nat) : Nat := (a + b) % 4294967296

/-- 32-bit right-rotation of a value below `2^32`. -/
def rotr32 (x n : Nat) : Nat := (x / 2 ^ n + x % 2 ^ n * 2 ^ (32 - n)) % 4294967296

/-- SHA-256 `Ch(x,y,z) = (x ∧ y) ⊕ (¬x ∧ z)`. -/
def shaCh (x y z : Nat) : Nat := (x &&& y) ^^^ ((4294967295 ^^^ x) &&& z)

/-- SHA-256 `Maj(x,y,z)`. -/
def shaMaj (x y z : Nat) : Nat := (x &&& y) ^^^ (x &&& z) ^^^ (y &&& z)

/-- SHA-256 `Σ₀`. -/
def bigSigma0 (x : Nat) : Nat := rotr32 x 2 ^^^ rotr32 x 13 ^^^ rotr32 x 22

/-- SHA-256 `Σ₁`. -/
def bigSigma1 (x : Nat) : Nat := rotr32 x 6 ^^^ rotr32 x 11 ^^^ rotr32 x 25

/-- SHA-256 `σ₀`. -/
def smallSigma0 (x : Nat) : Nat := rotr32 x 7 ^^^ rotr32 x 18 ^^^ x / 2 ^ 3

/-- SHA-256 `σ₁`. -/
def smallSigma1 (x : Nat) : Nat := rotr32 x 17 ^^^ rotr32 x 19 ^^^ x / 2 ^ 10

/-- The SHA-256 round constants. -/
def shaK : List Nat :=
  [1116352408, 1899447441, 3049323471, 3921009573, 961987163, 1508970993,
   2453635748, 2870763221, 3624381080, 310598401, 607225278, 1426881987,
   1925078388, 2162078206, 2614888103, 3248222580, 3835390401, 4022224774,
   264347078, 604807628, 770255983, 1249150122, 1555081692, 1996064986,
   2554220882, 2821834349, 2952996808, 3210313671, 3336571891, 3584528711,
   113926993, 338241895, 666307205, 773529912, 1294757372, 1396182291,
   1695183700, 1986661051, 2177026350, 2456956037, 2730485921, 2820302411,
   3259730800, 3345764771, 3516065817, 3600352804, 4094571909, 275423344,
   430227734, 506948616, 659060556, 883997877, 958139571, 1322822218,
   1537002063, 1747873779, 1955562222, 2024104815, 2227730452, 2361852424,
   2428436474, 2756734187, 3204031479, 3329325298]

/-- A SHA-256 hash state (eight 32-bit words). -/
structure Sha256State where
  a : Nat
  b : Nat
  c : Nat
  d : Nat
  e : Nat
  f : Nat
  g : Nat
  h : Nat

/-- The SHA-256 initial hash value. -/
def shaH0 : Sha256State :=
  ⟨0x6a09e667, 0xbb67ae85, 0x3c6ef372, 0xa54ff53a, 0x510e527f, 0x9b05688c, 0x1f83d9ab, 0x5be0cd19⟩

/-- One SHA-256 compression round with schedule word `w` and constant `k`. -/
def shaRound (st : Sha256State) (wk : Nat × Nat) : Sha256State :=
  let t1 := add32 st.h (add32 (bigSigma1 st.e) (add32 (shaCh st.e st.f st.g) (add32 wk.2 wk.1)))
  let t2 := add32 (bigSigma0 st.a) (shaMaj st.a st.b st.c)
  ⟨add32 t1 t2, st.a, st.b, st.c, add32 st.d t1, st.e, st.f, st.g⟩

/-- Big-endian 32-bit words from a byte list (length a multiple of 4). -/
def bytesToWords : List Nat → List Nat
  | b0 :: b1 :: b2 :: b3 :: rest =>
    (b0 * 16777216 + b1 * 65536 + b2 * 256 + b3) :: bytesToWords rest
  | _ => []

/-- Message-schedule extension: prepend `n` more words to the reversed
schedule `racc` (whose head is the most recent word). -/
def shaExtend : Nat → List Nat → List Nat
  | 0, racc => racc
  | n + 1, racc =>
    shaExtend n
      (add32 (add32 (smallSigma1 (racc.getD 1 0)) (racc.getD 6 0))
        (add32 (smallSigma0 (racc.getD 14 0)) (racc.getD 15 0)) :: racc)

/-- The 64-word message schedule of one 64-byte block. -/
def shaSchedule (block : List Nat) : List Nat :=
  (shaExtend 48 (bytesToWords block).reverse).reverse

/-- Process one 64-byte block. -/
def shaBlock (st : Sha256State) (block : List Nat) : Sha256State :=
  let out := ((shaSchedule block).zip shaK).foldl shaRound st
  ⟨add32 st.a out.a, add32 st.b out.b, add32 st.c out.c, add32 st.d out.d,
   add32 st.e out.e, add32 st.f out.f, add32 st.g out.g, add32 st.h out.h⟩

/-- Big-endian bytes of a 64-bit length value. -/
def be64 (n : Nat) : List Nat :=
  [n / 2 ^ 56 % 256, n / 2 ^ 48 % 256, n / 2 ^ 40 % 256, n / 2 ^ 32 % 256,
   n / 2 ^ 24 % 256, n / 2 ^ 16 % 256, n / 2 ^ 8 % 256, n % 256]

/-- SHA-256 padding: `0x80`, zeros to 56 mod 64, then the bit length. -/
def shaPad (msg : List Nat) : List Nat :=
  msg ++ 0x80 :: List.replicate ((119 - msg.length % 64) % 64) 0 ++ be64 (msg.length * 8)

/-- Split a byte list into 64-byte blocks (fuel-indexed). -/
def toBlocks : Nat → List Nat → List (List Nat)
  | 0, _ => []
  | _ + 1, [] => []
  | fuel + 1, l => l.take 64 :: toBlocks fuel (l.drop 64)

/-- SHA-256 of a byte list, as the final hash state. -/
def sha256Words (msg : List Nat) : Sha256State :=
  let padded := shaPad msg
  (toBlocks padded.length padded).foldl shaBlock shaH0

/-- Lowercase hex characters of one byte. -/
def byteHex (b : Nat) : List Char := [nibbleChar (b / 16), nibbleChar b]

/-- Lowercase hex characters of one 32-bit word (big-endian). -/
def wordHex (w : Nat) : List Char :=
  byteHex (w / 16777216 % 256) ++ byteHex (w / 65536 % 256) ++ byteHex (w / 256 % 256) ++ byteHex w

/-- `crypto.createHash('sha256').update(s).digest('hex')`: the 64 lowercase
hex characters of the SHA-256 of the UTF-8 bytes of `s`. -/
def sha256Hex (s : String) : String :=
  let d := sha256Words (utf8Encode s.data)
  ⟨wordHex d.a ++ wordHex d.b ++ wordHex d.c ++ wordHex d.d
    ++ wordHex d.e ++ wordHex d.f ++ wordHex d.g ++ wordHex d.h⟩

/-! ## The payload codec (`src/lib/qr/qrGenerator.ts`) -/

/-- The typed payload interface `QRPayload` of `qrGenerator.ts`.
JS `number` fields are modelled as integers (the values flowing through
`validateQRIntegrity` have passed the parser's positivity checks). -/
structure QRPayload where
  v : Int
  e : String
  t : Int
  a : String
  ts : Int
  c : String

/-- `calculateChecksum(eventId, ticketNumber, assetPubkey, timestamp)`:
first 4 hex chars of the SHA-256 of
`eventId:ticketNumber:assetPubkey:timestamp`. -/
def calculateChecksum (eventId : String) (ticketNumber : Int) (assetPubkey : String)
    (timestamp : Int) : String :=
  let checksumData :=
    eventId ++ ":" ++ ⟨intChars ticketNumber⟩ ++ ":" ++ assetPubkey ++ ":" ++ ⟨intChars timestamp⟩
  ⟨(sha256Hex checksumData).data.take 4⟩

/-- `generateTicketQR(eventId, ticketNumber, assetPubkey)`. The source reads
the clock (`Math.floor(Date.now() / 1000)`); here the resulting `timestamp`
is an explicit parameter. -/
def generateTicketQR (eventId : String) (ticketNumber : Nat) (assetPubkey : String)
    (timestamp : Nat) : String :=
  let checksum := calculateChecksum eventId ticketNumber assetPubkey timestamp
  let encoded :=
    b64urlEncode (utf8Encode
      (serializePayload eventId.data ticketNumber (assetPubkey.data.take 8) timestamp checksum.data))
  "parchi:" ++ ⟨encoded⟩

/-- The distinct failure exits of `parseQRCode`, by throw site. -/
inductive ParseErr where
  | invalidFormat : ParseErr
  | invalidEncoding : ParseErr
  | missingFields : ParseErr
  | unsupportedVersion : ParseErr
  | invalidTicketNumber : ParseErr
  | invalidTimestamp : ParseErr
deriving Repr, DecidableEq

/-- Which `parseQRCode` failures the spec taxonomy files under
`MalformedPayload` (everything except the version check). -/
def ParseErr.isMalformed : ParseErr → Bool
  | .unsupportedVersion => false
  | _ => true

/-- Does the decoded value pass `typeof x === 'number' && x > 0`? -/
def isPosNum : Option Json → Bool
  | some (.jnum q) => 0 < q
  | _ => false

/-- `parseQRCode(qrString)`. The result is the decoded JS object itself
(the source returns `decoded as QRPayload` without further conversion).
`base64url.decode` runs on Node's forgiving base64 decoder and
`TextDecoder` is lossy, so the only decode-stage failure is `JSON.parse`;
`qrString.replace('parchi:', '')` removes the first occurrence, which
given the prefix check is the leading 7 characters. -/
def parseQRCode (qrString : String) : Except ParseErr Json :=
  if ¬ "parchi:".data.isPrefixOf qrString.data then .error .invalidFormat
  else
    match jsonParse (utf8DecodeLossy (b64ForgivingDecode (qrString.data.drop 7))) with
    | none => .error .invalidEncoding
    | some decoded =>
      if ¬ otruthy (decoded.get? ['v']) ∨ ¬ otruthy (decoded.get? ['e'])
          ∨ ¬ otruthy (decoded.get? ['t']) ∨ ¬ otruthy (decoded.get? ['a'])
          ∨ ¬ otruthy (decoded.get? ['c']) ∨ ¬ otruthy (decoded.get? ['t', 's']) then
        .error .missingFields
      else if ¬ ((decoded.get? ['v']).getD .jnull).isOne then .error .unsupportedVersion
      else if ¬ isPosNum (decoded.get? ['t']) then .error .invalidTicketNumber
      else if ¬ isPosNum (decoded.get? ['t', 's']) then .error .invalidTimestamp
      else .ok decoded

/-- The failure exits of `validateQRIntegrity`. -/
inductive IntegrityErr where
  | expired : IntegrityErr
  | tampered : IntegrityErr
  | assetMismatch : IntegrityErr
deriving Repr, DecidableEq

/-- `validateQRIntegrity(qrData, fullAssetPubkey)`; `now` (seconds) is the
clock reading the source takes at entry. Checks run in source order:
freshness, then checksum, then asset-key prefix. -/
def validateQRIntegrity (qrData : QRPayload) (fullAssetPubkey : String) (now : Int) :
    Except IntegrityErr Unit :=
  let maxAge : Int := 365 * 24 * 60 * 60
  if now - qrData.ts > maxAge then .error .expired
  else if qrData.c ≠ calculateChecksum qrData.e qrData.t fullAssetPubkey qrData.ts then
    .error .tampered
  else if ¬ qrData.a.data.isPrefixOf fullAssetPubkey.data then .error .assetMismatch
  else .ok ()

/-! ## Relational model (Prisma `Ticket` / `GateVerification`)

Tables are lists of rows; `findUnique`/`findFirst` return the first match;
`prisma.$transaction` is modelled by returning the pre-call state whenever
the transaction body throws (rollback). Timestamps are integers and the
ids Prisma generates are explicit parameters. -/

/-- `TicketStatus` enum. -/
inductive TicketStatus where
  | ACTIVE : TicketStatus
  | USED : TicketStatus
  | CANCELLED : TicketStatus
  | REFUNDED : TicketStatus
deriving Repr, DecidableEq

/-- `VerificationStatus` enum. -/
inductive VerificationStatus where
  | PENDING : VerificationStatus
  | VERIFIED : VerificationStatus
  | REJECTED : VerificationStatus
deriving Repr, DecidableEq

/-- A `Ticket` row. -/
structure Ticket where
  ticketId : String
  eventId : String
  holderPubkey : String
  mintPubkey : Option String
  purchasePrice : Int
  status : TicketStatus
  usedAt : Option Int
deriving Repr, DecidableEq

/-- A JSON value stored in a record's `meta` column. -/
def optStrJson : Option String → Json
  | some s => .jstr s.data
  | none => .jnull

/-- A `GateVerification` row. -/
structure GateVerification where
  verificationId : String
  eventId : Option String
  ticketId : String
  verifierPubkey : String
  status : VerificationStatus
  verifiedAt : Option Int
  location : Option String
  meta : List (String × Json)

/-- The database state seen by the gate endpoints. -/
structure DB where
  tickets : List Ticket
  verifications : List GateVerification

/-- `findUnique` on `Ticket` by primary key. -/
def findTicket (db : DB) (tid : String) : Option Ticket :=
  db.tickets.find? (fun t => t.ticketId = tid)

/-- `findUnique` on `GateVerification` by primary key. -/
def findVerification (db : DB) (vid : String) : Option GateVerification :=
  db.verifications.find? (fun g => g.verificationId = vid)

/-- JS truthiness of an optional string request field
(`undefined`, `null` and `""` are all falsy). -/
def strTruthy : Option String → Bool
  | some s => !s.isEmpty
  | none => false

/-! ## `POST /api/gate/verify` (`src/app/api/gate/verify/route.ts`) -/

/-- The error exits of the verify endpoint (http error payloads /
transaction throw sites). `alreadyRedeemed` is the wire error
`already_redeemed_or_invalid` (HTTP 409). -/
inductive VerifyErr where
  | missingIds : VerifyErr
  | verificationNotFound : VerifyErr
  | couldNotResolve : VerifyErr
  | alreadyRedeemed : VerifyErr
  | verificationTicketMismatch : VerifyErr
deriving Repr, DecidableEq

/-- The success payload `{ticketId, verificationId, createdOrUpdated}`. -/
structure VerifyOk where
  ticketId : String
  verificationId : String
  createdOrUpdated : String
deriving Repr, DecidableEq

/-- The row transformation of the conditional `updateMany`: rows matching
`ticketId = tid ∧ status = ACTIVE` become USED with `usedAt = now`. -/
def markUsedFn (tid : String) (now : Int) (t : Ticket) : Ticket :=
  if t.ticketId = tid ∧ t.status = .ACTIVE then { t with status := .USED, usedAt := some now }
  else t

/-- `tx.ticket.updateMany({where: {ticketId, status: 'ACTIVE'}, data:
{status: 'USED', usedAt: now}})`: the count of affected rows and the
updated table. -/
def markUsedUpdateMany (db : DB) (tid : String) (now : Int) : Nat × DB :=
  ((db.tickets.filter (fun t => t.ticketId = tid ∧ t.status = .ACTIVE)).length,
   { db with tickets := db.tickets.map (markUsedFn tid now) })

/-- The `meta` object the verify endpoint writes: the spread of the
existing meta plus `serverVerifiedAt`, `gateId`, `staffId`. -/
def verifyMeta (old : List (String × Json)) (now : Int) (gateId staffId : Option String) :
    List (String × Json) :=
  old ++ [("serverVerifiedAt", .jstr (intChars now)),
          ("gateId", optStrJson gateId), ("staffId", optStrJson staffId)]

/-- Resolution stage of the verify transaction:
`let resolvedTicketId = ticketId ?? null`, then
`if (!resolvedTicketId && verificationId)` fetch the record's ticketId. -/
def resolveStep (db : DB) (ticketId? verificationId? : Option String) :
    Except VerifyErr (Option String) :=
  if ¬ strTruthy ticketId? ∧ strTruthy verificationId? then
    match findVerification db (verificationId?.getD "") with
    | some gv => .ok (some gv.ticketId)
    | none => .error .verificationNotFound
  else .ok ticketId?

/-- The record update of the verify transaction's `verificationId` branch. -/
def updatedRecord (existing : GateVerification) (now : Int) (staffId? gateId? : Option String) :
    GateVerification :=
  { existing with
      status := .VERIFIED
      verifiedAt := some now
      verifierPubkey := staffId?.getD existing.verifierPubkey
      location := gateId? <|> existing.location
      meta := verifyMeta existing.meta now gateId? staffId? }

/-- Redemption stage of the verify transaction, after the ticket id has
been resolved to the truthy `rtid`: the conditional `updateMany`, then the
upsert of the VERIFIED record. `.error` results mean the transaction
throws, rolling everything back to `db`. -/
def redeemStep (db : DB) (now : Int) (rtid : String) (verificationId? staffId? gateId? :
    Option String) (newVid : String) : Except VerifyErr VerifyOk × DB :=
  let upd := markUsedUpdateMany db rtid now
  if upd.1 = 0 then (.error .alreadyRedeemed, db)
  else
    let eventId := (findTicket upd.2 rtid).map (·.eventId)
    if strTruthy verificationId? then
      let vid := verificationId?.getD ""
      match findVerification upd.2 vid with
      | none => (.error .verificationNotFound, db)
      | some existing =>
        if existing.ticketId ≠ rtid then (.error .verificationTicketMismatch, db)
        else
          (.ok ⟨rtid, vid, "updated"⟩,
           { upd.2 with
               verifications := upd.2.verifications.map (fun g =>
                 if g.verificationId = vid then updatedRecord existing now staffId? gateId?
                 else g) })
    else
      let gv : GateVerification :=
        ⟨newVid, eventId, rtid, staffId?.getD "unknown-staff", .VERIFIED, some now, gateId?,
         verifyMeta [] now gateId? staffId?⟩
      (.ok ⟨rtid, newVid, "created"⟩,
       { upd.2 with verifications := upd.2.verifications ++ [gv] })

/-- `POST /api/gate/verify`. `newVid` is the id Prisma would generate for a
created `GateVerification` row. On any transaction throw the whole
transaction rolls back, so the pre-call `db` is returned. -/
def verifyPost (db : DB) (now : Int) (ticketId? verificationId? staffId? gateId? : Option String)
    (newVid : String) : Except VerifyErr VerifyOk × DB :=
  if ¬ strTruthy ticketId? ∧ ¬ strTruthy verificationId? then (.error .missingIds, db)
  else
    match resolveStep db ticketId? verificationId? with
    | .error e => (.error e, db)
    | .ok resolved =>
      if ¬ strTruthy resolved then (.error .couldNotResolve, db)
      else redeemStep db now (resolved.getD "") verificationId? staffId? gateId? newVid

/-! ## `POST /api/tickets/by-qr` (`src/app/api/tickets/by-qr/route.ts`) -/

/-- The error exits of the by-qr lookup endpoint. -/
inductive ByQrErr where
  | missingFields : ByQrErr
  | notFound : ByQrErr
  | internalError : ByQrErr
deriving Repr, DecidableEq

/-- `POST /api/tickets/by-qr`. The body fields are modelled as the decoded
JSON values (absent = `undefined`); `ticket_number` is only checked for
truthiness, the query filters on `eventId` equality and
`mintPubkey startsWith asset_prefix` alone (`startsWith` does not match a
`NULL` column). Truthy non-string query values make Prisma throw, caught
as the catch-all HTTP 500. On success the whole row is returned. -/
def byQrPost (db : DB) (event_id ticket_number asset_pfx : Option Json) :
    Except ByQrErr Ticket :=
  if ¬ otruthy event_id ∨ ¬ otruthy ticket_number ∨ ¬ otruthy asset_pfx then
    .error .missingFields
  else
    match event_id, asset_pfx with
    | some (.jstr eid), some (.jstr pfx) =>
      match db.tickets.find? (fun t =>
          t.eventId.data = eid ∧ t.mintPubkey.any (fun m => pfx.isPrefixOf m.data)) with
      | some t => .ok t
      | none => .error .notFound
    | _, _ => .error .internalError

/-! ## JS conversions used by the scan endpoint -/

/-- Decimal character rendering of a JS number (`String(x)` / `${x}`):
exact for integers and finite decimals; other rationals (which JS would
print with float rounding) get a fraction placeholder — no property proved
below depends on that case. -/
def jsNumChars (q : Rat) : List Char :=
  if q.den = 1 then intChars q.num
  else
    match (List.range 21).find? (fun k => q.den ∣ 10 ^ k) with
    | some k =>
      let scaled := (q.num.natAbs * 10 ^ k) / q.den
      let whole := scaled / 10 ^ k
      let frac := scaled % 10 ^ k
      let fracDigits := (List.replicate k '0' ++ natChars frac).reverse.take k |>.reverse
      let fd := fracDigits.reverse.dropWhile (fun c => c = '0') |>.reverse
      (if q.num < 0 then ['-'] else []) ++ natChars whole ++ '.' :: fd
    | none => intChars q.num ++ '/' :: natChars q.den

/-- `String(x)` / template-literal conversion of a JSON value. Arrays
(`join(',')`) are approximated by the empty string; no property proved
below depends on the array or object cases. -/
def jsToString : Json → List Char
  | .jstr s => s
  | .jnum q => jsNumChars q
  | .jbool true => "true".data
  | .jbool false => "false".data
  | .jnull => "null".data
  | .jarr _ => []
  | .jobj _ => "[object Object]".data

/-- `Number(x)` conversion; `none` models `NaN`. Strings are parsed as
decimal literals (the exotic forms `".5"`, hex, `Infinity` and the
`Number([]) = 0` edge are not modelled; no endpoint property proved below
depends on them). -/
def jsToNumber : Json → Option Rat
  | .jnum q => some q
  | .jnull => some 0
  | .jbool b => some (if b then 1 else 0)
  | .jstr s =>
    let t := (String.mk s).trim.data
    if t.isEmpty then some 0
    else
      let t' := match t with | '+' :: r => r | _ => t
      match parseNumber t' with
      | some (q, []) => some q
      | _ => none
  | .jarr _ => none
  | .jobj _ => none

/-- Percent-decoding to bytes: `%XX` escapes become single bytes, other
characters contribute their UTF-8 bytes. -/
def percentToBytes : List Char → Option (List Nat)
  | [] => some []
  | '%' :: h1 :: h2 :: rest =>
    match hexVal h1, hexVal h2 with
    | some a, some b => (percentToBytes rest).map ((a * 16 + b) :: ·)
    | _, _ => none
  | '%' :: _ => none
  | c :: rest => (percentToBytes rest).map (utf8EncodeChar c ++ ·)

/-- `decodeURIComponent`: percent-decode then strict UTF-8; throws (here
`none`) on malformed escapes. (Literal characters are round-tripped
through UTF-8, which agrees with the browser semantics on every input the
endpoint can receive.) -/
def decodeURIComponentModel (s : List Char) : Option (List Char) :=
  (percentToBytes s).bind utf8DecodeStrict

/-- JS strict equality of a JSON value against a string value. -/
def jsStrictEqStr (j : Json) (s : List Char) : Bool :=
  match j with
  | .jstr x => x = s
  | _ => false

/-! ## `POST /api/gate/scan` (`app/api/gate/scan/route.ts`) -/

/-- The error exits of the scan endpoint. -/
inductive ScanErr where
  | missingQrString : ScanErr
  | invalidQrFormat : ScanErr
  | qrMissingFields : ScanErr
  | unsupportedVersion : ScanErr
  | qrExpired : ScanErr
  | ticketNotFound : ScanErr
  | qrTampered : ScanErr
  | mintMismatch : ScanErr
  | ticketNotActive : ScanErr
deriving Repr, DecidableEq

/-- The scan success payload. -/
structure ScanOk where
  ticketId : String
  eventId : Json
  verificationId : Option String
  expiresInSeconds : Int
deriving Repr

/-- `DEFAULT_EXPIRES` (`GATE_JWT_EXP` unset). -/
def DEFAULT_EXPIRES : Int := 120

/-- `calculateChecksumServer(eventId, ticketNumber, assetPubkey, timestamp)`
from the scan route: same truncated SHA-256, over template-formatted
arguments. -/
def calculateChecksumServer (eventId : List Char) (ticketNumber : Option Rat)
    (assetPubkey : String) (timestamp : Json) : List Char :=
  let tn := match ticketNumber with
    | some q => jsNumChars q
    | none => "NaN".data
  (sha256Hex ⟨eventId ++ ':' :: tn ++ ':' :: assetPubkey.data ++ ':' :: jsToString timestamp⟩).data.take 4

/-- `typeof qrPayload?.t === 'number' ? qrPayload.t : Number(qrPayload?.t ?? 0)`. -/
def ticketNumberForChecksum (p : Json) : Option Rat :=
  match p.get? ['t'] with
  | some (.jnum q) => some q
  | some .jnull => some 0
  | none => some 0
  | some j => jsToNumber j

/-- The meta object written on the PENDING row created at scan time. -/
def scanMeta (now : Int) (gateId staffId : Option String) (p : Json) : List (String × Json) :=
  [("expiresInSeconds", .jnum 120), ("issuedAt", .jstr (intChars now)),
   ("gateId", optStrJson gateId), ("staffId", optStrJson staffId), ("rawQrPayload", p)]

/-- The scan route's decode stage: `parchi:`-prefixed strings go through
forgiving base64 plus lossy UTF-8 (`base64UrlToUtf8Node`), everything else
through `decodeURIComponent` with the raw string as fallback on throw. -/
def scanDecodedText (raw : List Char) : List Char :=
  if "parchi:".data.isPrefixOf raw then utf8DecodeLossy (b64ForgivingDecode (raw.drop 7))
  else match decodeURIComponentModel raw with
    | some t => t
    | none => raw

/-- `qrPayload?.t ?? qrPayload?.ticketId ?? null`. -/
def scanTicketIdFromQr (p : Json) : Option Json :=
  p.getNN ['t'] <|> p.getNN "ticketId".data

/-- `qrPayload?.m ?? qrPayload?.mint ?? qrPayload?.mintPubkey ?? qrPayload?.a ?? null`. -/
def scanMintRaw (p : Json) : Option Json :=
  p.getNN ['m'] <|> p.getNN "mint".data <|> p.getNN "mintPubkey".data <|> p.getNN ['a']

/-- `qrPayload?.e ?? qrPayload?.eventId ?? null`. -/
def scanEventIdFromQr (p : Json) : Option Json :=
  p.getNN ['e'] <|> p.getNN "eventId".data

/-- The freshness rejection test: applies only when `ts` is a number. -/
def scanExpired (now : Int) (p : Json) : Bool :=
  match p.getNN ['t', 's'] with
  | some (.jnum q) => ((now : Rat) - q > ((365 * 24 * 60 * 60 : Nat) : Rat) : Bool)
  | _ => false

/-- Ticket resolution: by `ticketId` when the payload's `t` is a truthy
string, else by mint value (prefix match when it is short). -/
def scanResolve (db : DB) (p : Json) : Option Ticket :=
  let byId : Option Ticket :=
    match scanTicketIdFromQr p with
    | some (.jstr s) => if s.isEmpty then none else findTicket db ⟨s⟩
    | _ => none
  match byId with
  | some t => some t
  | none =>
    match scanMintRaw p with
    | some (.jstr ms) =>
      if ms.isEmpty then none
      else
        let mp := (String.mk ms).trim
        if mp.length ≤ 16 then
          db.tickets.find? (fun t => t.mintPubkey.any (fun m => mp.data.isPrefixOf m.data))
        else db.tickets.find? (fun t => t.mintPubkey = some mp)
    | _ => none

/-- The guarded checksum validation: it runs only when the payload's `c`
and `ts` and the ticket's mint are all truthy, and fails when the payload
checksum is not strictly equal to the recomputed one. -/
def scanChecksumFail (p : Json) (ticket : Ticket) : Bool :=
  otruthy (p.getNN ['c']) ∧ otruthy (p.getNN ['t', 's']) ∧ strTruthy ticket.mintPubkey ∧
    ¬ jsStrictEqStr ((p.getNN ['c']).getD .jnull)
      (calculateChecksumServer
        (jsToString ((scanEventIdFromQr p).getD (.jstr ticket.eventId.data)))
        (ticketNumberForChecksum p)
        (ticket.mintPubkey.getD "")
        ((p.getNN ['t', 's']).getD .jnull))

/-- The relaxed diagnostic mint matching block. -/
def scanMintBad (p : Json) (ticket : Ticket) : Bool :=
  otruthy (p.get? ['m']) ∧ strTruthy ticket.mintPubkey ∧
    (let qrMint := (String.mk (jsToString ((p.get? ['m']).getD .jnull))).trim
     let dbMint := (ticket.mintPubkey.getD "").trim
     let fullEq := qrMint.toLower = dbMint.toLower
     let prefOk := qrMint.length ≤ 16 ∧
       (qrMint.toLower).data.isPrefixOf (dbMint.toLower).data
     ¬ fullEq ∧ ¬ prefOk)

/-- `POST /api/gate/scan`. `now` is the clock reading, `newVid` the id of
the PENDING row created at the end (its creation failure path, which the
source swallows, is not modelled). The ticket table is never written. -/
def scanPost (db : DB) (now : Int) (qrString? staffId? gateId? : Option String)
    (newVid : String) : Except ScanErr ScanOk × DB :=
  if ¬ strTruthy qrString? then (.error .missingQrString, db)
  else
    match jsonParse (scanDecodedText (qrString?.getD "").data) with
    | none => (.error .invalidQrFormat, db)
    | some p =>
      if ¬ otruthy (scanTicketIdFromQr p) ∧ ¬ otruthy (scanMintRaw p) then
        (.error .qrMissingFields, db)
      else if otruthy (p.getNN ['v']) ∧ ¬ ((p.getNN ['v']).getD .jnull).isOne then
        (.error .unsupportedVersion, db)
      else if scanExpired now p then (.error .qrExpired, db)
      else
        match scanResolve db p with
        | none => (.error .ticketNotFound, db)
        | some ticket =>
          if scanChecksumFail p ticket then (.error .qrTampered, db)
          else if scanMintBad p ticket then (.error .mintMismatch, db)
          else if ticket.status ≠ .ACTIVE then (.error .ticketNotActive, db)
          else
            let recEventId : String :=
              ((scanEventIdFromQr p).map (fun j => String.mk (jsToString j))).getD ticket.eventId
            let gv : GateVerification :=
              ⟨newVid, some recEventId, ticket.ticketId, staffId?.getD "unknown-staff",
               .PENDING, none, gateId?, scanMeta now gateId? staffId? p⟩
            (.ok ⟨ticket.ticketId, (scanEventIdFromQr p).getD (.jstr ticket.eventId.data),
                  some newVid, DEFAULT_EXPIRES⟩,
             { db with verifications := db.verifications ++ [gv] })

/-! ## One scan call sequence -/

/-- The per-request inputs of one scan call. -/
structure ScanCall where
  now : Int
  qrString : Option String
  staffId : Option String
  gateId : Option String
  newVid : String

/-- Run a sequence of scan calls against the database. -/
def applyScans (db : DB) (calls : List ScanCall) : DB :=
  calls.foldl (fun d c => (scanPost d c.now c.qrString c.staffId c.gateId c.newVid).2) db

/-! ## Instances and derived definitions used by the statements -/

/-- One sequential schedule of verify calls on one ticket id (each with a
fresh verification id), modelling N concurrent attempts as serialized by the
database's conditional update. -/
def verifySeq (db : DB) (now : Int) (tid : String) (nvs : List String) :
    List (Except VerifyErr VerifyOk) × DB :=
  match nvs with
  | [] => ([], db)
  | v :: rest =>
    ((verifyPost db now (some tid) none none none v).1 ::
       (verifySeq (verifyPost db now (some tid) none none none v).2 now tid rest).1,
     (verifySeq (verifyPost db now (some tid) none none none v).2 now tid rest).2)

def isOkV : Except VerifyErr VerifyOk → Bool
  | .ok _ => true
  | .error _ => false

/-- The core correctness invariant of the data model: every USED ticket has
a VERIFIED verification record, and every VERIFIED record points at a USED
ticket. -/
def TicketInv (db : DB) : Prop :=
  (∀ t ∈ db.tickets, t.status = .USED →
     ∃ gv ∈ db.verifications, gv.ticketId = t.ticketId ∧ gv.status = .VERIFIED) ∧
  (∀ gv ∈ db.verifications, gv.status = .VERIFIED →
     ∀ t ∈ db.tickets, t.ticketId = gv.ticketId → t.status = .USED)

/-- Concrete rows for the scan-endpoint instantiations. -/
def c10ticket : Ticket := ⟨"T1", "E", "H", some "M", 0, .ACTIVE, none⟩

def c10db : DB := ⟨[c10ticket], []⟩

def c10payload : Json := .jobj [(['t'], .jstr ['T', '1'])]

/-- Concrete rows for the verify-endpoint instantiations: one ACTIVE ticket
and its PENDING verification record. -/
def c2ticket : Ticket := ⟨"T", "E", "H", some "MINT11111111", 100, .ACTIVE, none⟩

def c2rec : GateVerification := ⟨"X", some "E", "T", "staff1", .PENDING, none, none, []⟩

def c2db : DB := ⟨[c2ticket], [c2rec]⟩

/-- Two tickets of one event with distinct mint keys, for the by-qr lookup
instantiations. -/
def c7ticketA : Ticket := ⟨"TA", "E", "H", some "AAAA1111xxxx", 0, .ACTIVE, none⟩

def c7ticketB : Ticket := ⟨"TB", "E", "H", some "BBBB2222xxxx", 0, .ACTIVE, none⟩

def c7db : DB := ⟨[c7ticketA, c7ticketB], []⟩

/-- A payload carrying the correct checksum for asset AAAAAAAAB at ts 1. -/
def c5payload : QRPayload :=
  ⟨1, "x", 1, "AAAAAAAA", 1, calculateChecksum "x" 1 "AAAAAAAAB" 1⟩

/-- A fresh ACTIVE ticket for the at-most-once instantiation. -/
def c1ticket : Ticket := ⟨"T1", "E1", "H", some "M", 0, .ACTIVE, none⟩

/-- A database holding just that ticket. -/
def c1db : DB := ⟨[c1ticket], []⟩

/-! # Lemmas -/

theorem scanPost_tickets_eq (db : DB) (now : Int) (q s g : Option String) (v : String) :
    ((scanPost db now q s g v).2).tickets = db.tickets := by
  unfold scanPost
  dsimp only
  repeat first
  | rfl
  | split

theorem applyScans_tickets_eq (calls : List ScanCall) (db : DB) :
    (applyScans db calls).tickets = db.tickets := by
  induction calls generalizing db with
  | nil => rfl
  | cons c rest ih =>
    simpa [applyScans, scanPost_tickets_eq] using
      (scanPost_tickets_eq db c.now c.qrString c.staffId c.gateId c.newVid ▸
        ih (scanPost db c.now c.qrString c.staffId c.gateId c.newVid).2)

theorem markUsed_verifications (db : DB) (tid : String) (now : Int) :
    ((markUsedUpdateMany db tid now).2).verifications = db.verifications := rfl

theorem markUsed_count_zero_iff (db : DB) (tid : String) (now : Int) :
    (markUsedUpdateMany db tid now).1 = 0 ↔
      ∀ t ∈ db.tickets, ¬(t.ticketId = tid ∧ t.status = .ACTIVE) := by
  simp [markUsedUpdateMany, List.length_eq_zero, List.filter_eq_nil_iff]

theorem markUsed_noActive (db : DB) (tid : String) (now : Int) :
    ∀ t' ∈ ((markUsedUpdateMany db tid now).2).tickets, t'.ticketId = tid →
      t'.status ≠ .ACTIVE := by
  intro t' ht' htid
  simp only [markUsedUpdateMany, List.mem_map] at ht'
  obtain ⟨t, ht, heq⟩ := ht'
  by_cases h : t.ticketId = tid ∧ t.status = .ACTIVE
  · simp only [markUsedFn, if_pos h] at heq
    rw [← heq]
    simp
  · simp only [markUsedFn, if_neg h] at heq
    subst heq
    intro hst
    exact h ⟨htid, hst⟩

theorem findTicket_congr (db1 db2 : DB) (tid : String) (h : db1.tickets = db2.tickets) :
    findTicket db1 tid = findTicket db2 tid := by
  unfold findTicket
  rw [h]

theorem findTicket_markUsed (db : DB) (tid : String) (now : Int) :
    findTicket (markUsedUpdateMany db tid now).2 tid =
      (findTicket db tid).map (fun t =>
        if t.status = .ACTIVE then { t with status := .USED, usedAt := some now } else t) := by
  show List.find? _ (db.tickets.map _) = _
  unfold findTicket
  induction db.tickets with
  | nil => rfl
  | cons t rest ih =>
    by_cases h : t.ticketId = tid
    · simp only [List.map_cons]
      rw [List.find?_cons_of_pos, List.find?_cons_of_pos]
      · by_cases ha : t.status = .ACTIVE
        · simp [markUsedFn, h, ha]
        · simp [markUsedFn, h, ha]
      · simpa using h
      · by_cases ha : t.status = .ACTIVE
        · simp [markUsedFn, h, ha]
        · simp [markUsedFn, h, ha]
    · simp only [List.map_cons]
      rw [List.find?_cons_of_neg, List.find?_cons_of_neg]
      · exact ih
      · simpa using h
      · by_cases ha : t.status = .ACTIVE
        · simp [markUsedFn, h, ha]
        · simp [markUsedFn, h, ha]

theorem isEmpty_false_of_ne {s : String} (h : s ≠ "") : s.isEmpty = false := by
  rw [← Bool.not_eq_true, String.isEmpty_iff]
  exact h

theorem verifyPost_fresh_active (db : DB) (now : Int) (tid nv : String) (htid : tid ≠ "")
    (h : ∃ t ∈ db.tickets, t.ticketId = tid ∧ t.status = .ACTIVE) :
    verifyPost db now (some tid) none none none nv =
      (.ok ⟨tid, nv, "created"⟩,
       { tickets := ((markUsedUpdateMany db tid now).2).tickets,
         verifications := db.verifications ++
           [⟨nv, (findTicket (markUsedUpdateMany db tid now).2 tid).map (·.eventId), tid,
             "unknown-staff", .VERIFIED, some now, none, verifyMeta [] now none none⟩] }) := by
  have hc : ¬((markUsedUpdateMany db tid now).1 = 0) := by
    rw [markUsed_count_zero_iff]
    push_neg
    obtain ⟨t, ht, h1, h2⟩ := h
    exact ⟨t, ht, h1, h2⟩
  unfold verifyPost
  simp [hc, strTruthy, resolveStep, redeemStep, markUsed_verifications,
    isEmpty_false_of_ne htid]

theorem verifyPost_fresh_inactive (db : DB) (now : Int) (tid nv : String) (htid : tid ≠ "")
    (h : ∀ t ∈ db.tickets, t.ticketId = tid → t.status ≠ .ACTIVE) :
    verifyPost db now (some tid) none none none nv = (.error .alreadyRedeemed, db) := by
  have hc : (markUsedUpdateMany db tid now).1 = 0 := by
    rw [markUsed_count_zero_iff]
    intro t ht hcon
    exact h t ht hcon.1 hcon.2
  unfold verifyPost
  simp [hc, strTruthy, resolveStep, redeemStep, isEmpty_false_of_ne htid]

theorem verifySeq_inactive (db : DB) (now : Int) (tid : String) (nvs : List String)
    (htid : tid ≠ "") (h : ∀ t ∈ db.tickets, t.ticketId = tid → t.status ≠ .ACTIVE) :
    verifySeq db now tid nvs = (nvs.map (fun _ => .error .alreadyRedeemed), db) := by
  induction nvs with
  | nil => rfl
  | cons v rest ih =>
    have hv := verifyPost_fresh_inactive db now tid v htid h
    show ((verifyPost db now (some tid) none none none v).1 ::
       (verifySeq (verifyPost db now (some tid) none none none v).2 now tid rest).1,
     (verifySeq (verifyPost db now (some tid) none none none v).2 now tid rest).2) = _
    rw [hv, ih]
    rfl


theorem redeemStep_cases (db : DB) (now : Int) (rtid : String) (v? s? g? : Option String)
    (nv : String) :
    (redeemStep db now rtid v? s? g? nv).2 = db ∨
      ∃ out, (redeemStep db now rtid v? s? g? nv).1 = .ok out := by
  by_cases h1 : (markUsedUpdateMany db rtid now).1 = 0
  · left
    simp [redeemStep, h1]
  · by_cases h2 : strTruthy v? = true
    · cases hf : findVerification (markUsedUpdateMany db rtid now).2 (v?.getD "") with
      | none =>
        left
        simp [redeemStep, h1, h2, hf]
      | some existing =>
        by_cases h3 : existing.ticketId = rtid
        · right
          exact ⟨⟨rtid, v?.getD "", "updated"⟩, by simp [redeemStep, h1, h2, hf, h3]⟩
        · left
          simp [redeemStep, h1, h2, hf, h3]
    · right
      exact ⟨⟨rtid, nv, "created"⟩, by simp [redeemStep, h1, h2]⟩

theorem verifyPost_cases (db : DB) (now : Int) (t? v? s? g? : Option String) (nv : String) :
    (verifyPost db now t? v? s? g? nv).2 = db ∨
      ∃ out, (verifyPost db now t? v? s? g? nv).1 = .ok out := by
  by_cases h0 : ¬ strTruthy t? ∧ ¬ strTruthy v?
  · left
    simp [verifyPost, h0]
  · cases hr : resolveStep db t? v? with
    | error e =>
      left
      simp only [verifyPost]
      rw [if_neg h0]
      simp [hr]
    | ok resolved =>
      by_cases h1 : strTruthy resolved = true
      · have heq : verifyPost db now t? v? s? g? nv =
            redeemStep db now (resolved.getD "") v? s? g? nv := by
          simp only [verifyPost]
          rw [if_neg h0]
          simp [hr, h1]
        rw [heq]
        exact redeemStep_cases db now (resolved.getD "") v? s? g? nv
      · left
        simp only [verifyPost]
        rw [if_neg h0]
        simp [hr, h1]

theorem verifyPost_error_rollback (db : DB) (now : Int) (t? v? s? g? : Option String)
    (nv : String) (e : VerifyErr)
    (he : (verifyPost db now t? v? s? g? nv).1 = .error e) :
    (verifyPost db now t? v? s? g? nv).2 = db := by
  rcases verifyPost_cases db now t? v? s? g? nv with h | ⟨out, hout⟩
  · exact h
  · rw [he] at hout
    cases hout


theorem find?_eq_of_nodup_mem {α : Type} (f : α → String) (l : List α)
    (hnd : (l.map f).Nodup) (a : α) (ha : a ∈ l) (k : String) (hk : f a = k) :
    l.find? (fun x => f x = k) = some a := by
  induction l with
  | nil => cases ha
  | cons b rest ih =>
    rw [List.map_cons, List.nodup_cons] at hnd
    rcases List.mem_cons.mp ha with rfl | hmem
    · rw [List.find?_cons_of_pos]
      simpa using hk
    · have hb : ¬(f b = k) := by
        intro hbk
        have hin : f a ∈ rest.map f := List.mem_map_of_mem f hmem
        rw [hk, ← hbk] at hin
        exact hnd.1 hin
      rw [List.find?_cons_of_neg]
      · exact ih hnd.2 hmem
      · simpa using hb

theorem find?_map_update {α : Type} (f : α → String) (l : List α) (k : String) (u : α)
    (hu : f u = k) (hex : ∃ a ∈ l, f a = k) :
    (l.map (fun g => if f g = k then u else g)).find? (fun x => f x = k) = some u := by
  induction l with
  | nil => simp at hex
  | cons b rest ih =>
    by_cases hb : f b = k
    · simp only [List.map_cons, if_pos hb]
      rw [List.find?_cons_of_pos]
      simpa using hu
    · simp only [List.map_cons, if_neg hb]
      rw [List.find?_cons_of_neg]
      · refine ih ?_
        rcases hex with ⟨a, ha, hak⟩
        rcases List.mem_cons.mp ha with rfl | hmem
        · exact absurd hak hb
        · exact ⟨a, hmem, hak⟩
      · simpa using hb

theorem mem_eq_of_nodup_key {α : Type} (f : α → String) (l : List α)
    (hnd : (l.map f).Nodup) {a b : α} (ha : a ∈ l) (hb : b ∈ l) (hf : f a = f b) : a = b := by
  induction l with
  | nil => cases ha
  | cons c rest ih =>
    rw [List.map_cons, List.nodup_cons] at hnd
    rcases List.mem_cons.mp ha with rfl | hma
    · rcases List.mem_cons.mp hb with rfl | hmb
      · rfl
      · exact absurd (hf ▸ List.mem_map_of_mem f hmb) hnd.1
    · rcases List.mem_cons.mp hb with rfl | hmb
      · exact absurd (hf ▸ List.mem_map_of_mem f hma) hnd.1
      · exact ih hnd.2 hma hmb

theorem exists_active_of_count_ne_zero {db : DB} {rtid : String} {now : Int}
    (h : (markUsedUpdateMany db rtid now).1 ≠ 0) :
    ∃ t ∈ db.tickets, t.ticketId = rtid ∧ t.status = .ACTIVE := by
  by_contra hc
  push_neg at hc
  exact h ((markUsed_count_zero_iff db rtid now).mpr (fun t ht hp => hc t ht hp.1 hp.2))

theorem findVerification_markUsed (db : DB) (rtid : String) (now : Int) (v : String) :
    findVerification (markUsedUpdateMany db rtid now).2 v = findVerification db v := rfl

theorem markUsedFn_ticketId (tid : String) (now : Int) (t : Ticket) :
    (markUsedFn tid now t).ticketId = t.ticketId := by
  unfold markUsedFn
  split
  · rfl
  · rfl

theorem markUsedFn_used (tid : String) (now : Int) (t : Ticket) (h : t.status = .USED) :
    markUsedFn tid now t = t := by
  unfold markUsedFn
  rw [if_neg]
  simp [h]

theorem findTicket_after_markUsed_used {db : DB} {rtid : String} {now : Int}
    (hndT : (db.tickets.map (·.ticketId)).Nodup)
    (h : (markUsedUpdateMany db rtid now).1 ≠ 0) :
    ∃ tk, findTicket (markUsedUpdateMany db rtid now).2 rtid = some tk ∧
      tk.status = .USED ∧ tk.usedAt = some now := by
  obtain ⟨t0, hmem, hid, hact⟩ := exists_active_of_count_ne_zero h
  have hfind : findTicket db rtid = some t0 := by
    unfold findTicket
    exact find?_eq_of_nodup_mem (fun t => t.ticketId) db.tickets hndT t0 hmem rtid hid
  refine ⟨{ t0 with status := .USED, usedAt := some now }, ?_, rfl, rfl⟩
  rw [findTicket_markUsed, hfind]
  simp [hact]

theorem redeemStep_update_eq (db : DB) (now : Int) (rtid : String) (v? s? g? : Option String)
    (nv : String) (existing : GateVerification)
    (h1 : (markUsedUpdateMany db rtid now).1 ≠ 0) (h2 : strTruthy v? = true)
    (hf : findVerification db (v?.getD "") = some existing)
    (h3 : existing.ticketId = rtid) :
    redeemStep db now rtid v? s? g? nv =
      (.ok ⟨rtid, v?.getD "", "updated"⟩,
       { tickets := ((markUsedUpdateMany db rtid now).2).tickets,
         verifications := db.verifications.map (fun g =>
           if g.verificationId = v?.getD "" then updatedRecord existing now s? g? else g) }) := by
  unfold redeemStep
  rw [if_neg h1]
  dsimp only
  rw [if_pos h2, findVerification_markUsed, hf]
  dsimp only
  rw [if_neg (show ¬(existing.ticketId ≠ rtid) by simp [h3])]
  rfl

theorem redeemStep_create_eq (db : DB) (now : Int) (rtid : String) (v? s? g? : Option String)
    (nv : String)
    (h1 : (markUsedUpdateMany db rtid now).1 ≠ 0) (h2 : strTruthy v? = false) :
    redeemStep db now rtid v? s? g? nv =
      (.ok ⟨rtid, nv, "created"⟩,
       { tickets := ((markUsedUpdateMany db rtid now).2).tickets,
         verifications := db.verifications ++
           [⟨nv, (findTicket (markUsedUpdateMany db rtid now).2 rtid).map (·.eventId), rtid,
             s?.getD "unknown-staff", .VERIFIED, some now, g?,
             verifyMeta [] now g? s?⟩] }) := by
  unfold redeemStep
  rw [if_neg h1]
  dsimp only
  rw [if_neg (show ¬(strTruthy v? = true) by simp [h2])]
  rfl

theorem redeemStep_notfound_eq (db : DB) (now : Int) (rtid : String)
    (v? s? g? : Option String) (nv : String)
    (h1 : (markUsedUpdateMany db rtid now).1 ≠ 0) (h2 : strTruthy v? = true)
    (hf : findVerification db (v?.getD "") = none) :
    redeemStep db now rtid v? s? g? nv = (.error .verificationNotFound, db) := by
  unfold redeemStep
  rw [if_neg h1]
  dsimp only
  rw [if_pos h2, findVerification_markUsed, hf]

theorem redeemStep_mismatch_eq (db : DB) (now : Int) (rtid : String)
    (v? s? g? : Option String) (nv : String) (existing : GateVerification)
    (h1 : (markUsedUpdateMany db rtid now).1 ≠ 0) (h2 : strTruthy v? = true)
    (hf : findVerification db (v?.getD "") = some existing)
    (h3 : existing.ticketId ≠ rtid) :
    redeemStep db now rtid v? s? g? nv = (.error .verificationTicketMismatch, db) := by
  unfold redeemStep
  rw [if_neg h1]
  dsimp only
  rw [if_pos h2, findVerification_markUsed, hf]
  dsimp only
  rw [if_pos h3]

theorem redeemStep_already_eq (db : DB) (now : Int) (rtid : String)
    (v? s? g? : Option String) (nv : String)
    (h1 : (markUsedUpdateMany db rtid now).1 = 0) :
    redeemStep db now rtid v? s? g? nv = (.error .alreadyRedeemed, db) := by
  unfold redeemStep
  rw [if_pos h1]

theorem redeemStep_ok_inv (db : DB) (now : Int) (rtid : String) (v? s? g? : Option String)
    (nv : String) (out : VerifyOk)
    (hok : (redeemStep db now rtid v? s? g? nv).1 = .ok out) :
    (markUsedUpdateMany db rtid now).1 ≠ 0 ∧ out.ticketId = rtid ∧
      ((strTruthy v? = true ∧ out.verificationId = v?.getD "" ∧
        ∃ existing, findVerification db (v?.getD "") = some existing ∧
          existing.ticketId = rtid) ∨
       (strTruthy v? = false ∧ out.verificationId = nv)) := by
  by_cases h1 : (markUsedUpdateMany db rtid now).1 = 0
  · rw [redeemStep_already_eq db now rtid v? s? g? nv h1] at hok
    cases hok
  · by_cases h2 : strTruthy v? = true
    · cases hf : findVerification db (v?.getD "") with
      | none =>
        rw [redeemStep_notfound_eq db now rtid v? s? g? nv h1 h2 hf] at hok
        cases hok
      | some existing =>
        by_cases h3 : existing.ticketId = rtid
        · rw [redeemStep_update_eq db now rtid v? s? g? nv existing h1 h2 hf h3] at hok
          have hout : out = ⟨rtid, v?.getD "", "updated"⟩ := by
            cases hok
            rfl
          subst hout
          exact ⟨h1, rfl, Or.inl ⟨h2, rfl, ⟨existing, rfl, h3⟩⟩⟩
        · rw [redeemStep_mismatch_eq db now rtid v? s? g? nv existing h1 h2 hf h3] at hok
          cases hok
    · have h2' : strTruthy v? = false := by
        rw [← Bool.not_eq_true]
        exact h2
      rw [redeemStep_create_eq db now rtid v? s? g? nv h1 h2'] at hok
      have hout : out = ⟨rtid, nv, "created"⟩ := by
        cases hok
        rfl
      subst hout
      exact ⟨h1, rfl, Or.inr ⟨h2', rfl⟩⟩

theorem verifyPost_ok_to_redeem (db : DB) (now : Int) (t? v? s? g? : Option String)
    (nv : String) (out : VerifyOk)
    (hok : (verifyPost db now t? v? s? g? nv).1 = .ok out) :
    ∃ resolved, resolveStep db t? v? = .ok resolved ∧ strTruthy resolved = true ∧
      verifyPost db now t? v? s? g? nv =
        redeemStep db now (resolved.getD "") v? s? g? nv := by
  by_cases h0 : ¬ strTruthy t? ∧ ¬ strTruthy v?
  · rw [show verifyPost db now t? v? s? g? nv = (.error .missingIds, db) by
      unfold verifyPost
      rw [if_pos h0]] at hok
    cases hok
  · cases hr : resolveStep db t? v? with
    | error e =>
      rw [show verifyPost db now t? v? s? g? nv = (.error e, db) by
        unfold verifyPost
        rw [if_neg h0]
        simp [hr]] at hok
      cases hok
    | ok resolved =>
      by_cases h1 : strTruthy resolved = true
      · refine ⟨resolved, rfl, h1, ?_⟩
        unfold verifyPost
        rw [if_neg h0]
        simp [hr, h1]
      · rw [show verifyPost db now t? v? s? g? nv = (.error .couldNotResolve, db) by
          unfold verifyPost
          rw [if_neg h0]
          simp [hr, h1]] at hok
        cases hok


theorem markUsedFn_not_matching (rtid : String) (now : Int) (t : Ticket)
    (h : ¬(t.ticketId = rtid ∧ t.status = .ACTIVE)) : markUsedFn rtid now t = t := by
  unfold markUsedFn
  rw [if_neg h]

theorem inv_preserved_update (db : DB) (now : Int) (rtid vid : String)
    (s? g? : Option String) (existing : GateVerification)
    (hndT : (db.tickets.map (·.ticketId)).Nodup)
    (hndV : (db.verifications.map (·.verificationId)).Nodup)
    (hInv : TicketInv db)
    (h1 : (markUsedUpdateMany db rtid now).1 ≠ 0)
    (hf : findVerification db vid = some existing)
    (h3 : existing.ticketId = rtid) :
    TicketInv
      { tickets := db.tickets.map (markUsedFn rtid now),
        verifications := db.verifications.map (fun g =>
          if g.verificationId = vid then updatedRecord existing now s? g? else g) } := by
  have hvid : existing.verificationId = vid := by
    have := List.find?_some hf
    simpa using this
  have hexmem : existing ∈ db.verifications := List.mem_of_find?_eq_some hf
  constructor
  · intro t' ht' hused
    obtain ⟨t, ht, rfl⟩ := List.mem_map.mp ht'
    by_cases hcase : t.ticketId = rtid ∧ t.status = .ACTIVE
    · refine ⟨updatedRecord existing now s? g?,
        ?_, ?_, rfl⟩
      · exact List.mem_map.mpr ⟨existing, hexmem, by rw [if_pos hvid]⟩
      · show existing.ticketId = (markUsedFn rtid now t).ticketId
        rw [markUsedFn_ticketId, h3, hcase.1]
    · rw [markUsedFn_not_matching rtid now t hcase] at hused ⊢
      obtain ⟨gv, hgv, hgt, hgs⟩ := hInv.1 t ht hused
      by_cases hg : gv.verificationId = vid
      · have hgve : gv = existing :=
          mem_eq_of_nodup_key (·.verificationId) db.verifications hndV hgv hexmem
            (by show gv.verificationId = existing.verificationId; rw [hg, hvid])
        refine ⟨updatedRecord existing now s? g?, ?_, ?_, rfl⟩
        · exact List.mem_map.mpr ⟨gv, hgv, by rw [if_pos hg]⟩
        · show existing.ticketId = t.ticketId
          rw [← hgve]
          exact hgt
      · exact ⟨gv, List.mem_map.mpr ⟨gv, hgv, by rw [if_neg hg]⟩, hgt, hgs⟩
  · intro gv' hgv' hst t' ht' htid
    obtain ⟨gv, hgv, rfl⟩ := List.mem_map.mp hgv'
    obtain ⟨t, ht, rfl⟩ := List.mem_map.mp ht'
    obtain ⟨t0, hmem0, hid0, hact0⟩ := exists_active_of_count_ne_zero h1
    by_cases hg : gv.verificationId = vid
    · rw [if_pos hg] at hst htid
      have htr : t.ticketId = rtid := by
        rw [markUsedFn_ticketId] at htid
        rw [htid]
        show (updatedRecord existing now s? g?).ticketId = rtid
        exact h3
      have hteq : t = t0 :=
        mem_eq_of_nodup_key (·.ticketId) db.tickets hndT ht hmem0
          (by show t.ticketId = t0.ticketId; rw [htr, hid0])
      subst hteq
      unfold markUsedFn
      rw [if_pos ⟨htr, hact0⟩]
    · rw [if_neg hg] at hst htid
      have hused : t.status = .USED := by
        refine hInv.2 gv hgv hst t ht ?_
        rw [markUsedFn_ticketId] at htid
        exact htid
      rw [markUsedFn_used rtid now t hused]
      exact hused

theorem inv_preserved_create (db : DB) (now : Int) (rtid : String)
    (gvNew : GateVerification)
    (hndT : (db.tickets.map (·.ticketId)).Nodup)
    (hInv : TicketInv db)
    (h1 : (markUsedUpdateMany db rtid now).1 ≠ 0)
    (hgvt : gvNew.ticketId = rtid) (hgvs : gvNew.status = .VERIFIED) :
    TicketInv
      { tickets := db.tickets.map (markUsedFn rtid now),
        verifications := db.verifications ++ [gvNew] } := by
  constructor
  · intro t' ht' hused
    obtain ⟨t, ht, rfl⟩ := List.mem_map.mp ht'
    by_cases hcase : t.ticketId = rtid ∧ t.status = .ACTIVE
    · refine ⟨gvNew, ?_, ?_, hgvs⟩
      · simp
      · rw [markUsedFn_ticketId, hgvt, hcase.1]
    · rw [markUsedFn_not_matching rtid now t hcase] at hused ⊢
      obtain ⟨gv, hgv, hgt, hgs⟩ := hInv.1 t ht hused
      exact ⟨gv, List.mem_append_left _ hgv, hgt, hgs⟩
  · intro gv' hgv' hst t' ht' htid
    obtain ⟨t, ht, rfl⟩ := List.mem_map.mp ht'
    rw [markUsedFn_ticketId] at htid
    rcases List.mem_append.mp hgv' with hold | hnew
    · have hused : t.status = .USED := hInv.2 gv' hold hst t ht htid
      rw [markUsedFn_used rtid now t hused]
      exact hused
    · have : gv' = gvNew := by simpa using hnew
      subst this
      obtain ⟨t0, hmem0, hid0, hact0⟩ := exists_active_of_count_ne_zero h1
      have htr : t.ticketId = rtid := by rw [htid, hgvt]
      have hteq : t = t0 :=
        mem_eq_of_nodup_key (·.ticketId) db.tickets hndT ht hmem0
          (by show t.ticketId = t0.ticketId; rw [htr, hid0])
      subst hteq
      unfold markUsedFn
      rw [if_pos ⟨htr, hact0⟩]


end Parchii
namespace Parchii

theorem hexVal_nibbleChar (n : Nat) : hexVal (nibbleChar n) = some (n % 16) := by
  have h : n % 16 < 16 := Nat.mod_lt _ (by norm_num)
  have hv : ∀ k < 16, hexVal (hexChars.getD k '0') = some k := by decide
  exact hv (n % 16) h

theorem scalarChar_toNat (c : Char) : scalarChar c.toNat = c := by
  have hv : c.toNat < 55296 ∨ (57344 ≤ c.toNat ∧ c.toNat < 1114112) := c.valid
  unfold scalarChar
  rw [if_pos (by omega)]
  exact Char.ofNat_toNat c

theorem parseStringBody_escape (s rest : List Char) :
    parseStringBody (jsonEscape s ++ '"' :: rest) = some (s, rest) := by
  induction s with
  | nil =>
    show parseStringBody ([].flatMap escapeChar ++ '"' :: rest) = _
    rw [List.flatMap_nil, List.nil_append, parseStringBody.eq_def]
    simp
  | cons c s' ih =>
    have hstep : jsonEscape (c :: s') ++ '"' :: rest =
        escapeChar c ++ (jsonEscape s' ++ '"' :: rest) := by
      simp [jsonEscape]
    rw [hstep]
    by_cases h1 : c = '"'
    · subst h1
      rw [show escapeChar '"' = ['\\', '"'] from rfl]
      simp only [List.cons_append, List.nil_append]
      rw [parseStringBody.eq_def]
      simp [ih]
    · by_cases h2 : c = '\\'
      · subst h2
        rw [show escapeChar '\\' = ['\\', '\\'] from rfl]
        simp only [List.cons_append, List.nil_append]
        rw [parseStringBody.eq_def]
        simp [ih]
      · by_cases h3 : c = Char.ofNat 0x08
        · subst h3
          rw [show escapeChar (Char.ofNat 0x08) = ['\\', 'b'] from rfl]
          simp only [List.cons_append, List.nil_append]
          rw [parseStringBody.eq_def]
          simp [ih]
        · by_cases h4 : c = '\t'
          · subst h4
            rw [show escapeChar '\t' = ['\\', 't'] from rfl]
            simp only [List.cons_append, List.nil_append]
            rw [parseStringBody.eq_def]
            simp [ih]
          · by_cases h5 : c = '\n'
            · subst h5
              rw [show escapeChar '\n' = ['\\', 'n'] from rfl]
              simp only [List.cons_append, List.nil_append]
              rw [parseStringBody.eq_def]
              simp [ih]
            · by_cases h6 : c = Char.ofNat 0x0C
              · subst h6
                rw [show escapeChar (Char.ofNat 0x0C) = ['\\', 'f'] from rfl]
                simp only [List.cons_append, List.nil_append]
                rw [parseStringBody.eq_def]
                simp [ih]
              · by_cases h7 : c = Char.ofNat 0x0D
                · subst h7
                  rw [show escapeChar (Char.ofNat 0x0D) = ['\\', 'r'] from rfl]
                  simp only [List.cons_append, List.nil_append]
                  rw [parseStringBody.eq_def]
                  simp [ih]
                · by_cases h8 : c.toNat < 0x20
                  · have hesc : escapeChar c =
                        ['\\', 'u', '0', '0', nibbleChar (c.toNat / 16), nibbleChar c.toNat] := by
                      unfold escapeChar
                      rw [if_neg h1, if_neg h2, if_neg h3, if_neg h4, if_neg h5, if_neg h6,
                        if_neg h7, if_pos h8]
                    rw [hesc]
                    simp only [List.cons_append, List.nil_append]
                    rw [parseStringBody.eq_def]
                    simp [show hexVal '0' = some 0 from rfl, hexVal_nibbleChar, ih]
                    convert scalarChar_toNat c using 2
                    omega
                  · have hesc : escapeChar c = [c] := by
                      unfold escapeChar
                      rw [if_neg h1, if_neg h2, if_neg h3, if_neg h4, if_neg h5, if_neg h6,
                        if_neg h7, if_neg h8]
                    rw [hesc]
                    simp only [List.cons_append, List.nil_append]
                    rw [parseStringBody.eq_def]
                    simp [h1, h2, h8, ih]

end Parchii

namespace Parchii

theorem digits_facts (n : Nat) (hn : n ≠ 0) :
    ∃ ch tl, natChars n = ch :: tl ∧ ch.isDigit = true ∧ ch ≠ '0' ∧
      (∀ c ∈ natChars n, c.isDigit = true) := by
  have hten : ∀ d < 10, (nibbleChar d).isDigit = true ∧ (1 ≤ d → nibbleChar d ≠ '0') := by decide
  have hne : Nat.digits 10 n ≠ [] := Nat.digits_ne_nil_iff_ne_zero.mpr hn
  have hall : ∀ c ∈ natChars n, c.isDigit = true := by
    intro c hc
    unfold natChars at hc
    rw [if_neg hn] at hc
    obtain ⟨d, hd, rfl⟩ := List.mem_map.mp hc
    have hdmem : d ∈ Nat.digits 10 n := List.mem_reverse.mp hd
    exact (hten d (Nat.digits_lt_base (by norm_num) hdmem)).1
  obtain ⟨ch, tl, hcons⟩ : ∃ ch tl, natChars n = ch :: tl := by
    unfold natChars
    rw [if_neg hn]
    cases hrev : (Nat.digits 10 n).reverse with
    | nil => exact absurd (by simpa using hrev) hne
    | cons a l => exact ⟨nibbleChar a, l.map nibbleChar, by simp [hrev]⟩
  refine ⟨ch, tl, hcons, ?_, ?_, hall⟩
  · exact hall ch (hcons ▸ List.mem_cons_self ch tl)
  · -- the leading character is the most significant digit, which is nonzero
    have hlast : (Nat.digits 10 n).getLast hne ≠ 0 := Nat.getLast_digit_ne_zero 10 hn
    have hrev : (natChars n).head? = some (nibbleChar ((Nat.digits 10 n).getLast hne)) := by
      unfold natChars
      rw [if_neg hn]
      rw [List.head?_map, List.head?_reverse, List.getLast?_eq_getLast _ hne]
      rfl
    rw [hcons] at hrev
    simp only [List.head?_cons, Option.some.injEq] at hrev
    subst hrev
    have hd : (Nat.digits 10 n).getLast hne < 10 :=
      Nat.digits_lt_base (by norm_num) (List.getLast_mem hne)
    exact (hten _ hd).2 (Nat.one_le_iff_ne_zero.mpr hlast)

theorem foldl_digits_acc (l : List Nat) (acc : Nat) :
    l.reverse.foldl (fun a d => a * 10 + d) acc = acc * 10 ^ l.length + Nat.ofDigits 10 l := by
  induction l generalizing acc with
  | nil => simp
  | cons d L ih =>
    rw [List.reverse_cons, List.foldl_append]
    simp only [List.foldl_cons, List.foldl_nil]
    rw [ih]
    rw [Nat.ofDigits_cons, List.length_cons, pow_succ]
    ring

theorem digitsVal_natChars (n : Nat) : digitsVal (natChars n) = n := by
  by_cases hn : n = 0
  · subst hn
    decide
  · unfold digitsVal natChars
    rw [if_neg hn]
    have hmap : ∀ d ∈ Nat.digits 10 n, digitVal (nibbleChar d) = d := by
      intro d hd
      have hlt : d < 10 := Nat.digits_lt_base (by norm_num) hd
      have : ∀ k < 10, digitVal (nibbleChar k) = k := by decide
      exact this d hlt
    rw [List.foldl_map]
    have hcong : ((Nat.digits 10 n).reverse).foldl
        (fun a c => a * 10 + digitVal (nibbleChar c)) 0 =
        ((Nat.digits 10 n).reverse).foldl (fun a d => a * 10 + d) 0 := by
      apply List.foldl_ext
      intro a c hc
      rw [hmap c (List.mem_reverse.mp hc)]
    rw [hcong, foldl_digits_acc]
    simp [Nat.ofDigits_digits]

end Parchii

namespace Parchii

theorem takeWhile_all_append (p : Char → Bool) (l r : List Char)
    (hl : ∀ c ∈ l, p c = true) (hr : ∀ c, r.head? = some c → p c = false) :
    (l ++ r).takeWhile p = l ∧ (l ++ r).dropWhile p = r := by
  induction l with
  | nil =>
    simp only [List.nil_append]
    cases r with
    | nil => simp
    | cons c rest =>
      have := hr c rfl
      simp [List.takeWhile, List.dropWhile, this]
  | cons a l' ih =>
    have ha := hl a (List.mem_cons_self a l')
    have ih' := ih (fun c hc => hl c (List.mem_cons_of_mem a hc))
    simp only [List.cons_append, List.takeWhile_cons, List.dropWhile_cons, ha]
    simp [ih'.1, ih'.2]

theorem parseNumber_natChars (n : Nat) (hn : 0 < n) (c : Char) (rest : List Char)
    (hc : c.isDigit = false) (hdot : c ≠ '.') (he : c ≠ 'e') (hE : c ≠ 'E') :
    parseNumber (natChars n ++ c :: rest) = some ((n : Rat), c :: rest) := by
  obtain ⟨ch, tl, hcons, hchd, hch0, hall⟩ := digits_facts n (Nat.pos_iff_ne_zero.mp hn)
  have htw := takeWhile_all_append Char.isDigit (natChars n) (c :: rest) hall
    (fun c' hc' => by
      simp only [List.head?_cons, Option.some.injEq] at hc'
      subst hc'
      exact hc)
  have hhead : (natChars n ++ c :: rest).head? = some ch := by
    rw [hcons]
    rfl
  have hnegF : ¬ ((natChars n ++ c :: rest).head? = some '-') := by
    rw [hhead]
    intro h
    injection h with h
    rw [h] at hchd
    exact absurd hchd (by decide)
  unfold parseNumber
  simp only []
  rw [if_neg hnegF, htw.1, htw.2]
  rw [if_neg (by
    rw [hcons]
    simp)]
  rw [if_neg (by
    rw [hcons]
    simp only [List.head?_cons, Option.some.injEq]
    intro hcon
    exact hch0 hcon.1)]
  rw [if_neg (by
    simp only [List.head?_cons, Option.some.injEq]
    exact hdot)]
  simp only []
  rw [if_neg (by
    simp only [List.head?_cons, Option.some.injEq]
    rintro (h | h)
    · exact he h
    · exact hE h)]
  simp only []
  rw [if_neg hnegF, digitsVal_natChars]

end Parchii

namespace Parchii

theorem skipWs_cons (c : Char) (r : List Char) (h : isJsonWs c = false) :
    skipWs (c :: r) = c :: r := by
  simp [skipWs, List.dropWhile_cons, h]

theorem isDigit_ne (ch c : Char) (hchd : ch.isDigit = true) (hc : c.isDigit = false) :
    ch ≠ c := by
  intro h
  rw [h] at hchd
  rw [hchd] at hc
  cases hc

theorem isJsonWs_eq_false (ch : Char) (hchd : ch.isDigit = true) : isJsonWs ch = false := by
  unfold isJsonWs
  refine decide_eq_false ?_
  rintro (h | h | h | h) <;>
    (rw [h] at hchd; exact absurd hchd (by decide))

theorem parseP_value_str (f : Nat) (s rest : List Char) :
    parseP (f + 1) .value ('"' :: (jsonEscape s ++ '"' :: rest)) =
      some (.val (.jstr s), rest) := by
  rw [parseP]
  rw [skipWs_cons _ _ (by decide)]
  simp only [if_pos rfl]
  rw [parseStringBody_escape]
  rfl

end Parchii

namespace Parchii

theorem parseP_value_num (f n : Nat) (hn : 0 < n) (c : Char) (rest : List Char)
    (hc : c.isDigit = false) (hdot : c ≠ '.') (he : c ≠ 'e') (hE : c ≠ 'E') :
    parseP (f + 1) .value (natChars n ++ c :: rest) =
      some (.val (.jnum (n : Rat)), c :: rest) := by
  obtain ⟨ch, tl, hcons, hchd, hch0, hall⟩ := digits_facts n (Nat.pos_iff_ne_zero.mp hn)
  rw [parseP, hcons, List.cons_append, skipWs_cons _ _ (isJsonWs_eq_false ch hchd)]
  simp only [if_neg (isDigit_ne ch '"' hchd (by decide)),
    if_neg (isDigit_ne ch 't' hchd (by decide)), if_neg (isDigit_ne ch 'f' hchd (by decide)),
    if_neg (isDigit_ne ch 'n' hchd (by decide)),
    if_neg (isDigit_ne ch lbrace hchd (by decide)),
    if_neg (isDigit_ne ch '[' hchd (by decide))]
  rw [← List.cons_append, ← hcons, parseNumber_natChars n hn c rest hc hdot he hE]
  rfl

theorem parseP_members_last (f : Nat) (key valstr after : List Char) (v : Json)
    (hval : parseP (f + 1) .value valstr = some (.val v, rbrace :: after)) :
    parseP (f + 2) .members ('"' :: (jsonEscape key ++ '"' :: ':' :: valstr)) =
      some (.mems [(key, v)], after) := by
  rw [parseP, skipWs_cons _ _ (by decide)]
  simp only [if_neg (show ('"' : Char) ≠ rbrace by decide), if_pos rfl,
    parseStringBody_escape]
  rw [skipWs_cons ':' valstr (by decide)]
  simp only [if_pos rfl, hval]
  rw [skipWs_cons rbrace after (by decide)]
  simp only [if_neg (show rbrace ≠ ',' by decide), if_pos rfl]
  rfl

theorem parseP_members_cons (f : Nat) (key valstr after2 r : List Char) (v : Json)
    (l : List (List Char × Json))
    (hval : parseP (f + 1) .value valstr = some (.val v, ',' :: after2))
    (hhead : after2.head? = some '"')
    (hmem : parseP (f + 1) .members after2 = some (.mems l, r)) :
    parseP (f + 2) .members ('"' :: (jsonEscape key ++ '"' :: ':' :: valstr)) =
      some (.mems ((key, v) :: l), r) := by
  obtain ⟨c0, a2, rfl⟩ : ∃ c0 a2, after2 = c0 :: a2 := by
    cases after2 with
    | nil => cases hhead
    | cons x xs => exact ⟨x, xs, rfl⟩
  simp only [List.head?_cons, Option.some.injEq] at hhead
  subst hhead
  rw [parseP, skipWs_cons _ _ (by decide)]
  simp only [if_neg (show ('"' : Char) ≠ rbrace by decide), if_pos rfl,
    parseStringBody_escape]
  rw [skipWs_cons ':' valstr (by decide)]
  simp only [if_pos rfl, hval]
  rw [skipWs_cons ',' ('"' :: a2) (by decide)]
  simp only [if_pos rfl]
  rw [skipWs_cons '"' a2 (by decide)]
  simp only [if_pos rfl, hmem]
  rfl

end Parchii

namespace Parchii

theorem parse_serialized (e a c : List Char) (t ts : Nat) (ht : 0 < t) (hts : 0 < ts)
    (f : Nat) :
    parseP (f + 8) .value (serializePayload e t a ts c) =
      some (.val (payloadJson e t a ts c), []) := by
  have h6 := parseP_members_last f ['c'] _ _ _ (parseP_value_str f c [rbrace])
  have h5 := parseP_members_cons (f + 1) ['t', 's'] _ _ _ _ _
    (parseP_value_num (f + 1) ts hts ',' _ (by decide) (by decide) (by decide) (by decide))
    (by rfl) h6
  have h4 := parseP_members_cons (f + 2) ['a'] _ _ _ _ _
    (parseP_value_str (f + 2) a _) (by rfl) h5
  have h3 := parseP_members_cons (f + 3) ['t'] _ _ _ _ _
    (parseP_value_num (f + 3) t ht ',' _ (by decide) (by decide) (by decide) (by decide))
    (by rfl) h4
  have h2 := parseP_members_cons (f + 4) ['e'] _ _ _ _ _
    (parseP_value_str (f + 4) e _) (by rfl) h3
  have h1 := parseP_members_cons (f + 5) ['v'] _ _ _ _ _
    (parseP_value_num (f + 5) 1 (by decide) ',' _ (by decide) (by decide) (by decide)
      (by decide))
    (by rfl) h2
  have hser : serializePayload e t a ts c =
      lbrace :: ('"' :: (jsonEscape ['v'] ++ '"' :: ':' :: (natChars 1 ++ ',' ::
        ('"' :: (jsonEscape ['e'] ++ '"' :: ':' :: ('"' :: (jsonEscape e ++ '"' :: ',' ::
        ('"' :: (jsonEscape ['t'] ++ '"' :: ':' :: (natChars t ++ ',' ::
        ('"' :: (jsonEscape ['a'] ++ '"' :: ':' :: ('"' :: (jsonEscape a ++ '"' :: ',' ::
        ('"' :: (jsonEscape ['t', 's'] ++ '"' :: ':' :: (natChars ts ++ ',' ::
        ('"' :: (jsonEscape ['c'] ++ '"' :: ':' ::
          ('"' :: (jsonEscape c ++ '"' :: [rbrace]))))))))))))))))))))) := by
    simp only [serializePayload, jsonStringLit,
      show jsonEscape ['v'] = ['v'] from rfl, show jsonEscape ['e'] = ['e'] from rfl,
      show jsonEscape ['t'] = ['t'] from rfl, show jsonEscape ['a'] = ['a'] from rfl,
      show jsonEscape ['t', 's'] = ['t', 's'] from rfl,
      show jsonEscape ['c'] = ['c'] from rfl,
      (by simp [natChars]; rfl : natChars 1 = ['1']),
      show ("\"v\":1,\"e\":").data = ['"', 'v', '"', ':', '1', ',', '"', 'e', '"', ':']
        from rfl,
      show (",\"t\":").data = [',', '"', 't', '"', ':'] from rfl,
      show (",\"a\":").data = [',', '"', 'a', '"', ':'] from rfl,
      show (",\"ts\":").data = [',', '"', 't', 's', '"', ':'] from rfl,
      show (",\"c\":").data = [',', '"', 'c', '"', ':'] from rfl]
    simp [List.append_assoc]
  rw [hser, parseP, skipWs_cons lbrace _ (by decide)]
  simp only [if_neg (show lbrace ≠ '"' by decide), if_neg (show lbrace ≠ 't' by decide),
    if_neg (show lbrace ≠ 'f' by decide), if_neg (show lbrace ≠ 'n' by decide),
    if_pos rfl, h1]
  simp [payloadJson]

theorem jsonParse_serialized (e a c : List Char) (t ts : Nat) (ht : 0 < t)
    (hts : 0 < ts) :
    jsonParse (serializePayload e t a ts c) = some (payloadJson e t a ts c) := by
  obtain ⟨f, hf⟩ : ∃ f, (serializePayload e t a ts c).length + 1 = f + 8 := by
    have hlen : 7 ≤ (serializePayload e t a ts c).length := by
      simp only [serializePayload, List.length_cons, List.length_append,
        show ("\"v\":1,\"e\":").data.length = 10 from rfl,
        show (",\"t\":").data.length = 5 from rfl,
        show (",\"a\":").data.length = 5 from rfl,
        show (",\"ts\":").data.length = 6 from rfl,
        show (",\"c\":").data.length = 5 from rfl]
      omega
    exact ⟨(serializePayload e t a ts c).length - 7, by omega⟩
  unfold jsonParse
  rw [hf, parse_serialized e a c t ts ht hts f]
  simp [skipWs]

end Parchii

namespace Parchii

theorem b64Val_b64Char (v : Nat) : b64Val (b64Char v) = some (v % 64) := by
  have h : v % 64 < 64 := Nat.mod_lt _ (by norm_num)
  have hv : ∀ k < 64, b64Val (b64Table.getD k 'A') = some k := by decide
  exact hv (v % 64) h

theorem b64_roundtrip (l : List Nat) (h : ∀ b ∈ l, b < 256) :
    b64ForgivingDecode (b64urlEncode l) = l := by
  induction l using b64urlEncode.induct with
  | case1 => rfl
  | case2 a =>
    have ha : a < 256 := h a (by simp)
    unfold b64ForgivingDecode
    rw [b64urlEncode]
    simp only [List.filterMap_cons, b64Val_b64Char, List.filterMap_nil]
    unfold b64Regroup
    have h1 : a / 4 % 64 = a / 4 := Nat.mod_eq_of_lt (by omega)
    have h2 : a % 4 * 16 % 64 = a % 4 * 16 := Nat.mod_eq_of_lt (by omega)
    rw [h1, h2]
    congr 1
    omega
  | case3 a b =>
    have ha : a < 256 := h a (by simp)
    have hb : b < 256 := h b (by simp)
    unfold b64ForgivingDecode
    rw [b64urlEncode]
    simp only [List.filterMap_cons, b64Val_b64Char, List.filterMap_nil]
    unfold b64Regroup
    have h1 : a / 4 % 64 = a / 4 := Nat.mod_eq_of_lt (by omega)
    have h2 : (a % 4 * 16 + b / 16) % 64 = a % 4 * 16 + b / 16 :=
      Nat.mod_eq_of_lt (by omega)
    have h3 : b % 16 * 4 % 64 = b % 16 * 4 := Nat.mod_eq_of_lt (by omega)
    rw [h1, h2, h3]
    congr 1
    · omega
    · congr 1
      omega
  | case4 a b c rest ih =>
    have ha : a < 256 := h a (by simp)
    have hb : b < 256 := h b (by simp)
    have hc : c < 256 := h c (by simp)
    have hrest : ∀ x ∈ rest, x < 256 := fun x hx => h x (by simp [hx])
    unfold b64ForgivingDecode
    rw [b64urlEncode]
    simp only [List.filterMap_cons, b64Val_b64Char]
    have h1 : a / 4 % 64 = a / 4 := Nat.mod_eq_of_lt (by omega)
    have h2 : (a % 4 * 16 + b / 16) % 64 = a % 4 * 16 + b / 16 :=
      Nat.mod_eq_of_lt (by omega)
    have h3 : (b % 16 * 4 + c / 64) % 64 = b % 16 * 4 + c / 64 :=
      Nat.mod_eq_of_lt (by omega)
    rw [h1, h2, h3]
    rw [b64Regroup]
    have ih' := ih hrest
    unfold b64ForgivingDecode at ih'
    rw [ih']
    congr 1
    · omega
    · congr 1
      · omega
      · congr 1
        omega

end Parchii

namespace Parchii

theorem utf8EncodeChar_ne_nil (c : Char) : utf8EncodeChar c ≠ [] := by
  unfold utf8EncodeChar
  simp only []
  split
  · simp
  · split
    · simp
    · split <;> simp

theorem utf8EncodeChar_lt_256 (c : Char) : ∀ b ∈ utf8EncodeChar c, b < 256 := by
  have hv : c.toNat < 55296 ∨ (57344 ≤ c.toNat ∧ c.toNat < 1114112) := c.valid
  intro b hb
  unfold utf8EncodeChar at hb
  simp only [] at hb
  by_cases h1 : c.toNat < 0x80
  · rw [if_pos h1] at hb
    simp at hb
    omega
  · rw [if_neg h1] at hb
    by_cases h2 : c.toNat < 0x800
    · rw [if_pos h2] at hb
      simp at hb
      rcases hb with rfl | rfl <;> omega
    · rw [if_neg h2] at hb
      by_cases h3 : c.toNat < 0x10000
      · rw [if_pos h3] at hb
        simp at hb
        rcases hb with rfl | rfl | rfl <;> omega
      · rw [if_neg h3] at hb
        simp at hb
        rcases hb with rfl | rfl | rfl | rfl <;> omega

theorem utf8Encode_lt_256 (s : List Char) : ∀ b ∈ utf8Encode s, b < 256 := by
  intro b hb
  unfold utf8Encode at hb
  obtain ⟨c, _, hbc⟩ := List.mem_flatMap.mp hb
  exact utf8EncodeChar_lt_256 c b hbc

theorem utf8Step_encode (c : Char) (r : List Nat) (b0 : Nat) (tl : List Nat)
    (h : utf8EncodeChar c = b0 :: tl) :
    utf8Step b0 (tl ++ r) = (c, r) := by
  have hv : c.toNat < 55296 ∨ (57344 ≤ c.toNat ∧ c.toNat < 1114112) := c.valid
  unfold utf8EncodeChar at h
  simp only [] at h
  by_cases h1 : c.toNat < 0x80
  · rw [if_pos h1] at h
    rw [List.cons.injEq] at h
    obtain ⟨hb, ht⟩ := h
    subst hb
    subst ht
    rw [List.nil_append]
    unfold utf8Step
    rw [if_pos h1, scalarChar_toNat]
  · rw [if_neg h1] at h
    by_cases h2 : c.toNat < 0x800
    · rw [if_pos h2] at h
      rw [List.cons.injEq] at h
      obtain ⟨hb, ht⟩ := h
      subst hb
      subst ht
      rw [List.cons_append, List.nil_append]
      unfold utf8Step
      rw [if_neg (by omega), if_pos (by constructor <;> omega)]
      simp only []
      rw [if_pos (show isCont (0x80 + c.toNat % 64) = true by simp [isCont]; omega)]
      have hval : (0xC0 + c.toNat / 64 - 0xC0) * 64 + (0x80 + c.toNat % 64 - 0x80) =
          c.toNat := by omega
      rw [hval, scalarChar_toNat]
    · rw [if_neg h2] at h
      by_cases h3 : c.toNat < 0x10000
      · rw [if_pos h3] at h
        rw [List.cons.injEq] at h
        obtain ⟨hb, ht⟩ := h
        subst hb
        subst ht
        rw [List.cons_append, List.cons_append, List.nil_append]
        unfold utf8Step
        rw [if_neg (by omega), if_neg (by omega), if_pos (by constructor <;> omega)]
        simp only []
        rw [if_pos (show isCont (0x80 + c.toNat / 64 % 64) = true ∧
            isCont (0x80 + c.toNat % 64) = true by
          constructor <;> (simp [isCont]; omega))]
        have hval : (0xE0 + c.toNat / 4096 - 0xE0) * 4096 +
            (0x80 + c.toNat / 64 % 64 - 0x80) * 64 + (0x80 + c.toNat % 64 - 0x80) =
            c.toNat := by omega
        rw [hval, scalarChar_toNat]
      · rw [if_neg h3] at h
        rw [List.cons.injEq] at h
        obtain ⟨hb, ht⟩ := h
        subst hb
        subst ht
        rw [List.cons_append, List.cons_append, List.cons_append, List.nil_append]
        unfold utf8Step
        rw [if_neg (by omega), if_neg (by omega), if_neg (by omega),
          if_pos (by constructor <;> omega)]
        simp only []
        rw [if_pos (show isCont (0x80 + c.toNat / 4096 % 64) = true ∧
            isCont (0x80 + c.toNat / 64 % 64) = true ∧ isCont (0x80 + c.toNat % 64) = true by
          refine ⟨?_, ?_, ?_⟩ <;> (simp [isCont]; omega))]
        have hval : (0xF0 + c.toNat / 262144 - 0xF0) * 262144 +
            (0x80 + c.toNat / 4096 % 64 - 0x80) * 4096 +
            (0x80 + c.toNat / 64 % 64 - 0x80) * 64 + (0x80 + c.toNat % 64 - 0x80) =
            c.toNat := by omega
        rw [hval, scalarChar_toNat]

theorem utf8Go_encode (s : List Char) : ∀ fuel, (utf8Encode s).length ≤ fuel →
    utf8Go fuel (utf8Encode s) = s := by
  induction s with
  | nil =>
    intro fuel _
    cases fuel <;> rfl
  | cons c s' ih =>
    intro fuel hf
    obtain ⟨b0, tl, hcons⟩ : ∃ b0 tl, utf8EncodeChar c = b0 :: tl := by
      cases hh : utf8EncodeChar c with
      | nil => exact absurd hh (utf8EncodeChar_ne_nil c)
      | cons x xs => exact ⟨x, xs, rfl⟩
    have henc : utf8Encode (c :: s') = b0 :: (tl ++ utf8Encode s') := by
      show (c :: s').flatMap utf8EncodeChar = _
      rw [List.flatMap_cons, hcons]
      rfl
    rw [henc] at hf ⊢
    cases fuel with
    | zero => simp at hf
    | succ g =>
      rw [utf8Go]
      rw [utf8Step_encode c (utf8Encode s') b0 tl hcons]
      have hlen : (utf8Encode s').length ≤ g := by
        simp only [List.length_cons, List.length_append] at hf
        omega
      rw [ih g hlen]

theorem utf8DecodeLossy_encode (s : List Char) :
    utf8DecodeLossy (utf8Encode s) = s :=
  utf8Go_encode s _ le_rfl

theorem codec_roundtrip (s : List Char) :
    utf8DecodeLossy (b64ForgivingDecode (b64urlEncode (utf8Encode s))) = s := by
  rw [b64_roundtrip _ (utf8Encode_lt_256 s), utf8DecodeLossy_encode]

end Parchii

namespace Parchii

theorem nibbleChar_mem_hexChars (n : Nat) : nibbleChar n ∈ hexChars := by
  have h : ∀ j < 16, hexChars.getD j '0' ∈ hexChars := by decide
  exact h (n % 16) (Nat.mod_lt _ (by norm_num))

theorem byteHex_mem (b : Nat) : ∀ ch ∈ byteHex b, ch ∈ hexChars := by
  intro ch hch
  simp only [byteHex, List.mem_cons, List.not_mem_nil, or_false] at hch
  rcases hch with rfl | rfl <;> exact nibbleChar_mem_hexChars _

theorem wordHex_mem (w : Nat) : ∀ ch ∈ wordHex w, ch ∈ hexChars := by
  intro ch hch
  simp only [wordHex, List.mem_append] at hch
  rcases hch with ((h | h) | h) | h <;> exact byteHex_mem _ ch h

theorem sha256Hex_data (s : String) :
    (sha256Hex s).data.length = 64 ∧ ∀ ch ∈ (sha256Hex s).data, ch ∈ hexChars := by
  unfold sha256Hex
  simp only []
  constructor
  · simp [wordHex, byteHex]
  · intro ch hch
    simp only [List.mem_append] at hch
    rcases hch with ((((((h | h) | h) | h) | h) | h) | h) | h <;> exact wordHex_mem _ ch h

theorem checksum_shape (e : String) (t : Int) (a : String) (ts : Int) :
    (calculateChecksum e t a ts).data.length = 4 ∧
      ∀ ch ∈ (calculateChecksum e t a ts).data, ch ∈ hexChars := by
  unfold calculateChecksum
  simp only []
  obtain ⟨hlen, hmem⟩ := sha256Hex_data
    (e ++ ":" ++ ⟨intChars t⟩ ++ ":" ++ a ++ ":" ++ ⟨intChars ts⟩)
  constructor
  · show ((sha256Hex _).data.take 4).length = 4
    rw [List.length_take]
    omega
  · intro ch hch
    exact hmem ch (List.take_subset 4 _ hch)

theorem checksum_ne_nil (e : String) (t : Int) (a : String) (ts : Int) :
    (calculateChecksum e t a ts).data ≠ [] := by
  have h := (checksum_shape e t a ts).1
  intro hcon
  rw [hcon] at h
  simp at h

theorem payloadJson_get (e : List Char) (t : Nat) (a : List Char) (ts : Nat)
    (c : List Char) :
    (payloadJson e t a ts c).get? ['v'] = some (.jnum 1) ∧
    (payloadJson e t a ts c).get? ['e'] = some (.jstr e) ∧
    (payloadJson e t a ts c).get? ['t'] = some (.jnum t) ∧
    (payloadJson e t a ts c).get? ['a'] = some (.jstr a) ∧
    (payloadJson e t a ts c).get? ['t', 's'] = some (.jnum ts) ∧
    (payloadJson e t a ts c).get? ['c'] = some (.jstr c) := by
  refine ⟨?_, ?_, ?_, ?_, ?_, ?_⟩ <;> simp [payloadJson, Json.get?, List.find?]

end Parchii

namespace Parchii

theorem parseQR_fields (e a c : List Char) (t ts : Nat)
    (he : e ≠ []) (hn : 0 < t) (ha : a ≠ []) (hc : c ≠ []) (hts : 0 < ts) :
    parseQRCode ⟨"parchi:".data ++ b64urlEncode (utf8Encode (serializePayload e t a ts c))⟩ =
      .ok (payloadJson e t a ts c) := by
  have pj := payloadJson_get e t a ts c
  have hv : otruthy (some (Json.jnum 1)) = true := by decide
  have hee : otruthy (some (Json.jstr e)) = true := by
    cases e with
    | nil => exact absurd rfl he
    | cons x xs => simp [otruthy, Json.truthy]
  have hat : otruthy (some (Json.jstr a)) = true := by
    cases a with
    | nil => exact absurd rfl ha
    | cons x xs => simp [otruthy, Json.truthy]
  have hcc : otruthy (some (Json.jstr c)) = true := by
    cases c with
    | nil => exact absurd rfl hc
    | cons x xs => simp [otruthy, Json.truthy]
  have htt : otruthy (some (Json.jnum (t : Rat))) = true := by
    simp [otruthy, Json.truthy]
    omega
  have htss : otruthy (some (Json.jnum (ts : Rat))) = true := by
    simp [otruthy, Json.truthy]
    omega
  unfold parseQRCode
  have hpre : "parchi:".data.isPrefixOf
      (("parchi:".data ++ b64urlEncode (utf8Encode (serializePayload e t a ts c)))) = true := by
    rw [List.isPrefixOf_iff_prefix]
    exact List.prefix_append _ _
  rw [if_neg (not_not_intro hpre)]
  have hdrop : ("parchi:".data ++
      b64urlEncode (utf8Encode (serializePayload e t a ts c))).drop 7 =
      b64urlEncode (utf8Encode (serializePayload e t a ts c)) := by
    have := List.drop_left "parchi:".data
      (b64urlEncode (utf8Encode (serializePayload e t a ts c)))
    rwa [show ("parchi:".data).length = 7 from rfl] at this
  rw [show ((⟨"parchi:".data ++ b64urlEncode (utf8Encode (serializePayload e t a ts c))⟩ :
      String)).data = "parchi:".data ++ b64urlEncode (utf8Encode (serializePayload e t a ts c))
    from rfl]
  rw [hdrop, codec_roundtrip, jsonParse_serialized e a c t ts hn hts]
  simp only []
  rw [if_neg (by
    simp only [pj.1, pj.2.1, pj.2.2.1, pj.2.2.2.1, pj.2.2.2.2.1, pj.2.2.2.2.2,
      hv, hee, htt, hat, hcc, htss]
    simp)]
  rw [if_neg (by
    simp only [pj.1]
    simp [Json.isOne])]
  rw [if_neg (by
    simp only [pj.2.2.1]
    simp [isPosNum]
    omega)]
  rw [if_neg (by
    simp only [pj.2.2.2.2.1]
    simp [isPosNum]
    omega)]

theorem generateTicketQR_eq (eventId assetPubkey : String) (n ts : Nat) :
    generateTicketQR eventId n assetPubkey ts =
      ⟨"parchi:".data ++ b64urlEncode (utf8Encode (serializePayload eventId.data n
        (assetPubkey.data.take 8) ts
        (calculateChecksum eventId (n : Int) assetPubkey (ts : Int)).data))⟩ := by
  unfold generateTicketQR
  simp only []
  apply String.ext
  rw [String.data_append]

theorem parseQR_generate (eventId assetPubkey : String) (n ts : Nat)
    (he : eventId.data ≠ []) (hn : 0 < n) (ha : assetPubkey.data ≠ []) (hts : 0 < ts) :
    parseQRCode (generateTicketQR eventId n assetPubkey ts) =
      .ok (payloadJson eventId.data n (assetPubkey.data.take 8) ts
        (calculateChecksum eventId (n : Int) assetPubkey (ts : Int)).data) := by
  rw [generateTicketQR_eq]
  exact parseQR_fields eventId.data (assetPubkey.data.take 8)
    (calculateChecksum eventId (n : Int) assetPubkey (ts : Int)).data n ts he hn
    (by
      intro hcon
      rw [List.take_eq_nil_iff] at hcon
      rcases hcon with h | h
      · exact absurd h (by norm_num)
      · exact ha h)
    (checksum_ne_nil eventId (n : Int) assetPubkey (ts : Int)) hts

end Parchii

namespace Parchii

/-- C6 (amended): the decode failure taxonomy of `parseQRCode`. Without the
`parchi:` prefix it fails `invalidFormat`; when `JSON.parse` fails it fails
`invalidEncoding`; when any of v, e, t, a, c, ts is FALSY — not merely
missing, so `v: 0` lands here — it fails `missingFields`; `unsupportedVersion`
fires only for a truthy v that is not strictly equal to 1; then t and ts
only need to be positive NUMBERS (integrality is never checked, see the
counterexample); otherwise the decoded object is returned with no checksum
validation. -/
theorem c6_parse_taxonomy (qr : String) (d : Json) :
    (¬ "parchi:".data.isPrefixOf qr.data → parseQRCode qr = .error .invalidFormat) ∧
    ("parchi:".data.isPrefixOf qr.data →
      jsonParse (utf8DecodeLossy (b64ForgivingDecode (qr.data.drop 7))) = none →
      parseQRCode qr = .error .invalidEncoding) ∧
    ("parchi:".data.isPrefixOf qr.data →
      jsonParse (utf8DecodeLossy (b64ForgivingDecode (qr.data.drop 7))) = some d →
      (((¬ otruthy (d.get? ['v']) ∨ ¬ otruthy (d.get? ['e']) ∨ ¬ otruthy (d.get? ['t'])
          ∨ ¬ otruthy (d.get? ['a']) ∨ ¬ otruthy (d.get? ['c'])
          ∨ ¬ otruthy (d.get? ['t', 's'])) →
        parseQRCode qr = .error .missingFields) ∧
      (otruthy (d.get? ['v']) → otruthy (d.get? ['e']) → otruthy (d.get? ['t']) →
        otruthy (d.get? ['a']) → otruthy (d.get? ['c']) → otruthy (d.get? ['t', 's']) →
        ((¬ ((d.get? ['v']).getD .jnull).isOne → parseQRCode qr = .error .unsupportedVersion) ∧
        (((d.get? ['v']).getD .jnull).isOne →
          ((¬ isPosNum (d.get? ['t']) → parseQRCode qr = .error .invalidTicketNumber) ∧
          (isPosNum (d.get? ['t']) →
            ((¬ isPosNum (d.get? ['t', 's']) → parseQRCode qr = .error .invalidTimestamp) ∧
            (isPosNum (d.get? ['t', 's']) → parseQRCode qr = .ok d))))))))) := by
  refine ⟨?_, ?_, ?_⟩
  · intro hnp
    unfold parseQRCode
    rw [if_pos hnp]
  · intro hp hnone
    unfold parseQRCode
    rw [if_neg (not_not_intro hp), hnone]
  · intro hp hdec
    unfold parseQRCode
    rw [if_neg (not_not_intro hp), hdec]
    simp only []
    constructor
    · intro hD
      rw [if_pos hD]
    · intro h1 h2 h3 h4 h5 h6
      rw [if_neg (by simp [h1, h2, h3, h4, h5, h6])]
      constructor
      · intro hv0
        rw [if_pos hv0]
      · intro hv1
        rw [if_neg (not_not_intro hv1)]
        constructor
        · intro ht0
          rw [if_pos ht0]
        · intro ht1
          rw [if_neg (not_not_intro ht1)]
          constructor
          · intro hts0
            rw [if_pos hts0]
          · intro hts1
            rw [if_neg (not_not_intro hts1)]

end Parchii

namespace Parchii

/-- C6 counterexample: a payload whose `v` field is present with value 0
decodes to `missingFields` (the truthiness guard), not the
`unsupportedVersion` the claim assigns to any version that is not 1; and the
positivity test used for t and ts accepts the non-integer 3/2. -/
theorem c6_counterexample :
    parseQRCode ⟨"parchi:".data ++ b64urlEncode (utf8Encode
      ("\x7b\"v\":0,\"e\":\"x\",\"t\":1,\"a\":\"AAAAAAAA\",\"ts\":1,\"c\":\"ab\"\x7d").data)⟩ =
      .error .missingFields ∧
    (jsonParse ("\x7b\"v\":0,\"e\":\"x\",\"t\":1,\"a\":\"AAAAAAAA\",\"ts\":1,\"c\":\"ab\"\x7d").data).map
      (fun d => d.get? ['v']) = some (some (.jnum 0)) ∧
    isPosNum (some (.jnum (3 / 2))) = true := by
  refine ⟨rfl, rfl, by norm_num [isPosNum]⟩

end Parchii

namespace Parchii

/-- C10: the scan endpoint runs checksum validation only when the payload's
`c` and `ts` fields (and the ticket's mint) are all truthy: whenever `c` or
`ts` is falsy and the request resolves an ACTIVE ticket past the other
guards, the tamper check is skipped and the scan succeeds. -/
theorem c10_scan_checksum_skipped (db : DB) (now : Int) (q s g : Option String) (v : String)
    (p : Json) (tk : Ticket)
    (hq : strTruthy q = true)
    (hp : jsonParse (scanDecodedText ((q.getD "").data)) = some p)
    (hfields : otruthy (scanTicketIdFromQr p) = true ∨ otruthy (scanMintRaw p) = true)
    (hver : ¬ (otruthy (p.getNN ['v']) ∧ ¬ ((p.getNN ['v']).getD .jnull).isOne))
    (hexp : scanExpired now p = false)
    (hres : scanResolve db p = some tk)
    (hskip : otruthy (p.getNN ['c']) = false ∨ otruthy (p.getNN ['t', 's']) = false)
    (hmint : scanMintBad p tk = false)
    (hact : tk.status = .ACTIVE) :
    scanChecksumFail p tk = false ∧
    (scanPost db now q s g v).1 =
      .ok ⟨tk.ticketId, (scanEventIdFromQr p).getD (.jstr tk.eventId.data), some v,
        DEFAULT_EXPIRES⟩ := by
  have hcf : scanChecksumFail p tk = false := by
    unfold scanChecksumFail
    rcases hskip with h | h <;> simp [h]
  refine ⟨hcf, ?_⟩
  unfold scanPost
  rw [if_neg (not_not_intro hq), hp]
  simp only []
  rw [if_neg (by rcases hfields with h | h <;> simp [h])]
  rw [if_neg hver]
  rw [if_neg (by simp [hexp])]
  rw [hres]
  simp only []
  rw [if_neg (by simp [hcf]), if_neg (by simp [hmint]), if_neg (by simp [hact])]

end Parchii

namespace Parchii

/-- C10 witness: a payload with only a `t` field (no `c`, no `ts`) scans
successfully against an ACTIVE ticket, and the checksum test is skipped. -/
theorem c10_scan_checksum_skipped_witness :
    scanChecksumFail c10payload c10ticket = false ∧
    (scanPost c10db 0 (some "\x7b\"t\":\"T1\"\x7d") (some "st") (some "g") "NV").1 =
      .ok ⟨"T1", .jstr ['E'], some "NV", DEFAULT_EXPIRES⟩ :=
  c10_scan_checksum_skipped c10db 0 (some "\x7b\"t\":\"T1\"\x7d") (some "st") (some "g")
    "NV" c10payload c10ticket rfl rfl (Or.inl rfl) (by decide) rfl rfl (Or.inl rfl) rfl rfl

end Parchii

namespace Parchii
/-- C3: the verify transaction is atomic. Every error exit returns the
pre-call state (rollback); every ok exit leaves the resolved ticket USED
(with `usedAt` set) and a VERIFIED record pointing at it; and the
USED-iff-VERIFIED invariant `TicketInv` is preserved. -/
theorem c3_verify_atomic (db : DB) (now : Int) (t? v? s? g? : Option String) (nv : String)
    (hndT : (db.tickets.map (·.ticketId)).Nodup)
    (hndV : (db.verifications.map (·.verificationId)).Nodup)
    (hfresh : findVerification db nv = none)
    (hInv : TicketInv db) :
    (∀ e, (verifyPost db now t? v? s? g? nv).1 = .error e →
       (verifyPost db now t? v? s? g? nv).2 = db)
    ∧ (∀ out, (verifyPost db now t? v? s? g? nv).1 = .ok out →
       (∃ tk, findTicket (verifyPost db now t? v? s? g? nv).2 out.ticketId = some tk ∧
          tk.status = .USED ∧ tk.usedAt = some now)
       ∧ (∃ gv, findVerification (verifyPost db now t? v? s? g? nv).2 out.verificationId =
            some gv ∧ gv.status = .VERIFIED ∧ gv.ticketId = out.ticketId))
    ∧ TicketInv (verifyPost db now t? v? s? g? nv).2 := by
  refine ⟨fun e he => verifyPost_error_rollback db now t? v? s? g? nv e he, ?_, ?_⟩
  · intro out hok
    obtain ⟨resolved, hres, hrt, heq⟩ := verifyPost_ok_to_redeem db now t? v? s? g? nv out hok
    rw [heq] at hok ⊢
    obtain ⟨h1, htid, hbr⟩ :=
      redeemStep_ok_inv db now (resolved.getD "") v? s? g? nv out hok
    rcases hbr with ⟨h2, hvid, existing, hf, h3⟩ | ⟨h2, hvid⟩
    · rw [redeemStep_update_eq db now (resolved.getD "") v? s? g? nv existing h1 h2 hf h3]
      constructor
      · rw [htid]
        obtain ⟨tk, htk, hst, hus⟩ := findTicket_after_markUsed_used hndT h1
        exact ⟨tk, htk, hst, hus⟩
      · refine ⟨updatedRecord existing now s? g?, ?_, rfl, ?_⟩
        · show List.find? _ _ = _
          rw [hvid]
          have hu : (updatedRecord existing now s? g?).verificationId = v?.getD "" := by
            show existing.verificationId = v?.getD ""
            have := List.find?_some hf
            simpa using this
          have hex : ∃ a ∈ db.verifications, a.verificationId = v?.getD "" :=
            ⟨existing, List.mem_of_find?_eq_some hf, by
              have := List.find?_some hf
              simpa using this⟩
          exact find?_map_update (fun g => g.verificationId) db.verifications (v?.getD "")
            (updatedRecord existing now s? g?) hu hex
        · show existing.ticketId = out.ticketId
          rw [h3, htid]
    · rw [redeemStep_create_eq db now (resolved.getD "") v? s? g? nv h1 h2]
      constructor
      · rw [htid]
        obtain ⟨tk, htk, hst, hus⟩ := findTicket_after_markUsed_used hndT h1
        exact ⟨tk, htk, hst, hus⟩
      · refine ⟨⟨nv, (findTicket (markUsedUpdateMany db (resolved.getD "") now).2
            (resolved.getD "")).map (·.eventId), resolved.getD "",
            s?.getD "unknown-staff", .VERIFIED, some now, g?, verifyMeta [] now g? s?⟩,
          ?_, rfl, htid.symm⟩
        show List.find? _ (db.verifications ++ _) = _
        rw [hvid, List.find?_append]
        have : List.find? (fun x => x.verificationId = nv) db.verifications = none := hfresh
        rw [this]
        simp
  · rcases verifyPost_cases db now t? v? s? g? nv with hsame | ⟨out, hok⟩
    · rw [hsame]
      exact hInv
    · obtain ⟨resolved, hres, hrt, heq⟩ := verifyPost_ok_to_redeem db now t? v? s? g? nv out hok
      rw [heq] at hok ⊢
      obtain ⟨h1, htid, hbr⟩ :=
        redeemStep_ok_inv db now (resolved.getD "") v? s? g? nv out hok
      rcases hbr with ⟨h2, hvid, existing, hf, h3⟩ | ⟨h2, hvid⟩
      · rw [redeemStep_update_eq db now (resolved.getD "") v? s? g? nv existing h1 h2 hf h3]
        exact inv_preserved_update db now (resolved.getD "") (v?.getD "") s? g? existing
          hndT hndV hInv h1 hf h3
      · rw [redeemStep_create_eq db now (resolved.getD "") v? s? g? nv h1 h2]
        exact inv_preserved_create db now (resolved.getD "")
          ⟨nv, (findTicket (markUsedUpdateMany db (resolved.getD "") now).2
            (resolved.getD "")).map (·.eventId), resolved.getD "",
            s?.getD "unknown-staff", .VERIFIED, some now, g?, verifyMeta [] now g? s?⟩
          hndT hInv h1 rfl rfl


end Parchii

namespace Parchii



/-- C2 counterexample: a verify by verificationId X succeeds, and the claimed
idempotent second call with the same X errors instead of returning the same
success. -/
theorem c2_counterexample :
    (verifyPost c2db 5 none (some "X") none none "NV1").1 = .ok ⟨"T", "X", "updated"⟩ ∧
    (verifyPost (verifyPost c2db 5 none (some "X") none none "NV1").2 6 none (some "X")
      none none "NV2").1 = .error .alreadyRedeemed := by
  exact ⟨rfl, rfl⟩




/-- C2 (amended): re-verification by verificationId is NOT idempotent.
After any successful verify call that supplied verificationId X, a second
call with the same X fails with `already_redeemed_or_invalid` and leaves
the state unchanged. -/
theorem c2_reverify_by_id_fails (db : DB) (now now' : Int) (t? s? g? s2? g2? : Option String)
    (X nv nv2 : String) (out : VerifyOk) (hX : X ≠ "")
    (hok : (verifyPost db now t? (some X) s? g? nv).1 = .ok out) :
    verifyPost (verifyPost db now t? (some X) s? g? nv).2 now' none (some X) s2? g2? nv2 =
      (.error .alreadyRedeemed, (verifyPost db now t? (some X) s? g? nv).2) := by
  have hXt : strTruthy (some X) = true := by
    simp [strTruthy, isEmpty_false_of_ne hX]
  obtain ⟨resolved, hres, hrt, heq⟩ :=
    verifyPost_ok_to_redeem db now t? (some X) s? g? nv out hok
  rw [heq] at hok ⊢
  obtain ⟨h1, htid, hbr⟩ :=
    redeemStep_ok_inv db now (resolved.getD "") (some X) s? g? nv out hok
  rcases hbr with ⟨h2, hvid, existing, hf, h3⟩ | ⟨h2, _⟩
  · -- update branch: the only possible one since strTruthy (some X)
    rw [redeemStep_update_eq db now (resolved.getD "") (some X) s? g? nv existing h1 h2 hf h3]
    set rtid := resolved.getD "" with hrtid
    have hrne : rtid ≠ "" := by
      cases resolved with
      | none => simp [strTruthy] at hrt
      | some r =>
        simp only [strTruthy] at hrt
        simp only [hrtid, Option.getD]
        intro hcon
        rw [hcon] at hrt
        exact absurd hrt (by decide)
    have hexid : existing.verificationId = (some X : Option String).getD "" := by
      have := List.find?_some hf
      simpa using this
    -- state after the first call
    set db1 : DB :=
      { tickets := ((markUsedUpdateMany db rtid now).2).tickets,
        verifications := db.verifications.map (fun g =>
          if g.verificationId = (some X : Option String).getD "" then
            updatedRecord existing now s? g? else g) } with hdb1
    -- second call resolution finds the updated record
    have hfind2 : findVerification db1 X =
        some (updatedRecord existing now s? g?) := by
      show List.find? _ _ = _
      have := find?_map_update (fun g => g.verificationId) db.verifications
        ((some X : Option String).getD "") (updatedRecord existing now s? g?)
        (by show existing.verificationId = _; exact hexid)
        ⟨existing, List.mem_of_find?_eq_some hf, hexid⟩
      simpa using this
    have hres2 : resolveStep db1 none (some X) = .ok (some rtid) := by
      unfold resolveStep
      rw [if_pos ⟨by simp [strTruthy], hXt⟩]
      rw [show (some X : Option String).getD "" = X from rfl, hfind2]
      show Except.ok (some (updatedRecord existing now s? g?).ticketId) = _
      have : (updatedRecord existing now s? g?).ticketId = rtid := h3
      rw [this]
    -- the conditional update now matches zero rows
    have hcount : (markUsedUpdateMany db1 rtid now').1 = 0 := by
      rw [markUsed_count_zero_iff]
      intro t ht hcon
      have : t.ticketId = rtid → t.status ≠ .ACTIVE := by
        intro hid
        exact markUsed_noActive db rtid now t ht hid
      exact this hcon.1 hcon.2
    unfold verifyPost
    rw [if_neg (by simp [hXt])]
    rw [hres2]
    dsimp only
    rw [if_neg (by simp [strTruthy, isEmpty_false_of_ne hrne])]
    rw [show (some rtid : Option String).getD "" = rtid from rfl]
    exact redeemStep_already_eq db1 now' rtid (some X) s2? g2? nv2 hcount
  · rw [hXt] at h2
    cases h2


end Parchii
namespace Parchii

/-- C8 counterexample: verifying a ticket id that does not exist reports
`already_redeemed_or_invalid`, not a ticket-not-found error. -/
theorem c8_counterexample :
    findTicket ⟨[], []⟩ "nope" = none ∧
    verifyPost ⟨[], []⟩ 0 (some "nope") none none none "NV" =
      (.error .alreadyRedeemed, (⟨[], []⟩ : DB)) := ⟨rfl, rfl⟩

theorem verifyPost_some_tid_eq_redeem (db : DB) (now : Int) (tid : String)
    (v? s? g? : Option String) (nv : String) (htid : tid ≠ "") :
    verifyPost db now (some tid) v? s? g? nv = redeemStep db now tid v? s? g? nv := by
  have hXt : strTruthy (some tid) = true := by
    simp [strTruthy, isEmpty_false_of_ne htid]
  unfold verifyPost
  rw [if_neg (by simp [hXt])]
  have hres : resolveStep db (some tid) v? = .ok (some tid) := by
    unfold resolveStep
    rw [if_neg (by simp [hXt])]
  rw [hres]
  dsimp only
  rw [if_neg (by simp [hXt])]
  rfl

/-- C8 (amended): the verify failure order. Missing both ids fails first;
with only a verificationId, an unknown id fails `verification_record_not_found`
before any ticket is touched; a ticket id with no ACTIVE row fails
`already_redeemed_or_invalid` — there is no ticket-not-found exit, so a
nonexistent ticket reports the same error (see the counterexample); and the
record fetch plus mismatch check run only after the conditional update
succeeded. -/
theorem c8_verify_error_order (db : DB) (now : Int) (v? s? g? : Option String) (nv tid : String)
    (htid : tid ≠ "") :
    (verifyPost db now none none s? g? nv = (.error .missingIds, db))
    ∧ (strTruthy v? = true → findVerification db (v?.getD "") = none →
        verifyPost db now none v? s? g? nv = (.error .verificationNotFound, db))
    ∧ ((∀ t ∈ db.tickets, t.ticketId = tid → t.status ≠ .ACTIVE) →
        verifyPost db now (some tid) v? s? g? nv = (.error .alreadyRedeemed, db))
    ∧ ((∃ t ∈ db.tickets, t.ticketId = tid ∧ t.status = .ACTIVE) → strTruthy v? = true →
        findVerification db (v?.getD "") = none →
        verifyPost db now (some tid) v? s? g? nv = (.error .verificationNotFound, db))
    ∧ (∀ existing, (∃ t ∈ db.tickets, t.ticketId = tid ∧ t.status = .ACTIVE) →
        strTruthy v? = true → findVerification db (v?.getD "") = some existing →
        existing.ticketId ≠ tid →
        verifyPost db now (some tid) v? s? g? nv = (.error .verificationTicketMismatch, db))
    ∧ (∀ existing, (∃ t ∈ db.tickets, t.ticketId = tid ∧ t.status = .ACTIVE) →
        strTruthy v? = true → findVerification db (v?.getD "") = some existing →
        existing.ticketId = tid →
        (verifyPost db now (some tid) v? s? g? nv).1 = .ok ⟨tid, v?.getD "", "updated"⟩) := by
  have hcount : (∃ t ∈ db.tickets, t.ticketId = tid ∧ t.status = .ACTIVE) →
      (markUsedUpdateMany db tid now).1 ≠ 0 := by
    intro h hc
    rw [markUsed_count_zero_iff] at hc
    obtain ⟨t, ht, h1, h2⟩ := h
    exact hc t ht ⟨h1, h2⟩
  refine ⟨?_, ?_, ?_, ?_, ?_, ?_⟩
  · unfold verifyPost
    rw [if_pos ⟨by simp [strTruthy], by simp [strTruthy]⟩]
  · intro hv hf
    unfold verifyPost
    rw [if_neg (by simp [hv])]
    have hres : resolveStep db none v? = .error .verificationNotFound := by
      unfold resolveStep
      rw [if_pos ⟨by simp [strTruthy], hv⟩, hf]
    rw [hres]
  · intro h
    rw [verifyPost_some_tid_eq_redeem db now tid v? s? g? nv htid]
    refine redeemStep_already_eq db now tid v? s? g? nv ?_
    rw [markUsed_count_zero_iff]
    intro t ht hcon
    exact h t ht hcon.1 hcon.2
  · intro hact hv hf
    rw [verifyPost_some_tid_eq_redeem db now tid v? s? g? nv htid]
    exact redeemStep_notfound_eq db now tid v? s? g? nv (hcount hact) hv hf
  · intro existing hact hv hf hne
    rw [verifyPost_some_tid_eq_redeem db now tid v? s? g? nv htid]
    exact redeemStep_mismatch_eq db now tid v? s? g? nv existing (hcount hact) hv hf hne
  · intro existing hact hv hf heq
    rw [verifyPost_some_tid_eq_redeem db now tid v? s? g? nv htid]
    rw [redeemStep_update_eq db now tid v? s? g? nv existing (hcount hact) hv hf heq]

end Parchii

namespace Parchii

/-- C7 counterexample: two requests that differ only in ticket_number (1
versus 2) both return the ticket matched by asset prefix — the claimed
primary-key lookup on (eventId, ticketNumber) does not exist. -/
theorem c7_counterexample :
    byQrPost c7db (some (.jstr "E".data)) (some (.jnum 1)) (some (.jstr "BBBB2222".data)) =
      .ok c7ticketB ∧
    byQrPost c7db (some (.jstr "E".data)) (some (.jnum 2)) (some (.jstr "BBBB2222".data)) =
      .ok c7ticketB := ⟨rfl, rfl⟩

/-- C7 (amended): the by-qr ticket lookup never uses ticket_number (the
schema has no such column). With event_id, ticket_number and asset_id all
truthy, the result is independent of the ticket_number value; it is
`notFound` exactly when no ticket of the event has the asset prefix on its
mint; and any hit is a ticket of that event whose mint starts with the
prefix (returned whole, status and mint included). -/
theorem c7_lookup_ignores_ticket_number (db : DB) (eid pfx : List Char) (tn tn' : Option Json)
    (htn : otruthy tn = true) (htn' : otruthy tn' = true)
    (heid : eid ≠ []) (hpfx : pfx ≠ []) :
    (byQrPost db (some (.jstr eid)) tn (some (.jstr pfx)) =
       byQrPost db (some (.jstr eid)) tn' (some (.jstr pfx)))
    ∧ (byQrPost db (some (.jstr eid)) tn (some (.jstr pfx)) = .error .notFound ↔
        ∀ t ∈ db.tickets, ¬(t.eventId.data = eid ∧
          t.mintPubkey.any (fun m => pfx.isPrefixOf m.data) = true))
    ∧ (∀ t, byQrPost db (some (.jstr eid)) tn (some (.jstr pfx)) = .ok t →
        t ∈ db.tickets ∧ t.eventId.data = eid ∧
          ∃ m, t.mintPubkey = some m ∧ pfx.isPrefixOf m.data = true) := by
  have hguard : ∀ x : Option Json, otruthy x = true →
      ¬(¬ otruthy (some (Json.jstr eid)) = true ∨ ¬ otruthy x = true ∨
        ¬ otruthy (some (Json.jstr pfx)) = true) := by
    intro x hx
    push_neg
    refine ⟨by simp [otruthy, Json.truthy, heid], by simp [hx], by simp [otruthy, Json.truthy, hpfx]⟩
  have hred : ∀ x : Option Json, otruthy x = true →
      byQrPost db (some (.jstr eid)) x (some (.jstr pfx)) =
        (match db.tickets.find? (fun t =>
            t.eventId.data = eid ∧ t.mintPubkey.any (fun m => pfx.isPrefixOf m.data)) with
         | some t => .ok t
         | none => .error .notFound) := by
    intro x hx
    unfold byQrPost
    rw [if_neg (hguard x hx)]
  refine ⟨by rw [hred tn htn, hred tn' htn'], ?_, ?_⟩
  · rw [hred tn htn]
    cases hfind : db.tickets.find? (fun t =>
        t.eventId.data = eid ∧ t.mintPubkey.any (fun m => pfx.isPrefixOf m.data)) with
    | none =>
      simp only [hfind]
      constructor
      · intro _ t ht hcon
        have := List.find?_eq_none.mp hfind t ht
        simp only [decide_eq_true_eq] at this
        exact this (by exact_mod_cast hcon)
      · intro _
        trivial
    | some t =>
      simp only [hfind]
      constructor
      · intro hcon
        cases hcon
      · intro hall
        exfalso
        have hmem := List.mem_of_find?_eq_some hfind
        have hp := List.find?_some hfind
        simp only [decide_eq_true_eq] at hp
        exact hall t hmem hp
  · intro t hok
    rw [hred tn htn] at hok
    cases hfind : db.tickets.find? (fun t =>
        t.eventId.data = eid ∧ t.mintPubkey.any (fun m => pfx.isPrefixOf m.data)) with
    | none =>
      rw [hfind] at hok
      cases hok
    | some t' =>
      rw [hfind] at hok
      have : t' = t := by cases hok; rfl
      subst this
      have hmem := List.mem_of_find?_eq_some hfind
      have hp := List.find?_some hfind
      simp only [decide_eq_true_eq] at hp
      refine ⟨hmem, hp.1, ?_⟩
      cases hm : t'.mintPubkey with
      | none =>
        rw [hm] at hp
        simp [Option.any] at hp
      | some m =>
        rw [hm] at hp
        refine ⟨m, rfl, ?_⟩
        simpa [Option.any] using hp.2

end Parchii
namespace Parchii

/-- C5 (amended): for a payload that passes the freshness check (which the
source runs FIRST, before any checksum comparison — see the counterexample),
`validateQRIntegrity` fails with `tampered` iff the stored checksum differs
from the recomputed `calculateChecksum`, then fails with `assetMismatch` iff
the asset prefix does not match, and otherwise succeeds. -/
theorem c5_integrity_order (p : QRPayload) (fullA : String) (now : Int)
    (hfresh : now - p.ts ≤ 365 * 24 * 60 * 60) :
    (validateQRIntegrity p fullA now = .error .tampered ↔
      p.c ≠ calculateChecksum p.e p.t fullA p.ts)
    ∧ (p.c = calculateChecksum p.e p.t fullA p.ts →
        (validateQRIntegrity p fullA now = .error .assetMismatch ↔
          ¬ p.a.data.isPrefixOf fullA.data = true))
    ∧ (p.c = calculateChecksum p.e p.t fullA p.ts → p.a.data.isPrefixOf fullA.data = true →
        validateQRIntegrity p fullA now = .ok ()) := by
  have hnex : ¬(now - p.ts > 365 * 24 * 60 * 60) := by omega
  unfold validateQRIntegrity
  rw [if_neg hnex]
  by_cases hc : p.c = calculateChecksum p.e p.t fullA p.ts
  · rw [if_neg (by simp [hc])]
    by_cases hpf : p.a.data.isPrefixOf fullA.data = true
    · rw [if_neg (by simp [hpf])]
      refine ⟨?_, ?_, ?_⟩
      · constructor
        · intro hcon
          cases hcon
        · intro hcon
          exact absurd hc hcon
      · intro _
        constructor
        · intro hcon
          cases hcon
        · intro hcon
          exact absurd hpf hcon
      · intro _ _
        rfl
    · rw [if_pos (by simpa using hpf)]
      refine ⟨?_, ?_, ?_⟩
      · constructor
        · intro hcon
          cases hcon
        · intro hcon
          exact absurd hc hcon
      · intro _
        exact ⟨fun _ => hpf, fun _ => rfl⟩
      · intro _ hcon
        exact absurd hcon hpf
  · rw [if_pos hc]
    refine ⟨⟨fun _ => hc, fun _ => rfl⟩, ?_, ?_⟩
    · intro hcon
      exact absurd hcon hc
    · intro hcon
      exact absurd hcon hc

/-- C5 counterexample: a payload whose checksum and asset prefix are both
correct still fails — with `expired` — because the freshness check runs
before the checksum comparison, so the claimed tampered-iff-mismatch
equivalence does not hold unconditionally. -/
theorem c5_counterexample :
    validateQRIntegrity c5payload "AAAAAAAAB" 1000000000 = .error .expired ∧
    c5payload.c = calculateChecksum c5payload.e c5payload.t "AAAAAAAAB" c5payload.ts ∧
    c5payload.a.data.isPrefixOf ("AAAAAAAAB").data = true := by
  refine ⟨?_, rfl, by decide⟩
  unfold validateQRIntegrity
  rw [if_pos (by decide)]

end Parchii

namespace Parchii

/-- C1: at-most-once redemption. For a ticket whose id has a unique ACTIVE
row, any nonempty sequence of verify calls on that id has exactly one ok
result, every other result is the `already_redeemed_or_invalid` error, and
afterwards the ticket is USED with the call clock as `usedAt`. -/
theorem c1_verify_at_most_once (db : DB) (now : Int) (tid : String) (nvs : List String)
    (htid : tid ≠ "")
    (hndT : (db.tickets.map (·.ticketId)).Nodup)
    (hact : ∃ t ∈ db.tickets, t.ticketId = tid ∧ t.status = .ACTIVE)
    (hne : nvs ≠ []) :
    ((verifySeq db now tid nvs).1.countP isOkV = 1) ∧
    (∀ r ∈ (verifySeq db now tid nvs).1, isOkV r = false → r = .error .alreadyRedeemed) ∧
    (∃ tk, findTicket (verifySeq db now tid nvs).2 tid = some tk ∧ tk.status = .USED ∧
      tk.usedAt = some now) := by
  obtain ⟨v, rest, rfl⟩ : ∃ v rest, nvs = v :: rest := by
    cases nvs with
    | nil => exact absurd rfl hne
    | cons v rest => exact ⟨v, rest, rfl⟩
  have h1 := verifyPost_fresh_active db now tid v htid hact
  have hseqeq : verifySeq db now tid (v :: rest) =
      ((verifyPost db now (some tid) none none none v).1 ::
        (verifySeq (verifyPost db now (some tid) none none none v).2 now tid rest).1,
       (verifySeq (verifyPost db now (some tid) none none none v).2 now tid rest).2) := rfl
  have hnoact : ∀ t ∈ ((verifyPost db now (some tid) none none none v).2).tickets,
      t.ticketId = tid → t.status ≠ .ACTIVE := by
    rw [h1]
    exact markUsed_noActive db tid now
  have hseq := verifySeq_inactive ((verifyPost db now (some tid) none none none v).2)
    now tid rest htid hnoact
  refine ⟨?_, ?_, ?_⟩
  · rw [hseqeq]
    simp only [List.countP_cons]
    rw [hseq]
    simp only []
    rw [List.countP_eq_zero.mpr (by
      intro r hr
      obtain ⟨_, _, rfl⟩ := List.mem_map.mp hr
      simp [isOkV])]
    rw [h1]
    rfl
  · rw [hseqeq]
    intro r hr hnok
    rcases List.mem_cons.mp hr with rfl | hmem
    · rw [h1] at hnok
      cases hnok
    · rw [hseq] at hmem
      obtain ⟨_, _, rfl⟩ := List.mem_map.mp hmem
      rfl
  · rw [hseqeq]
    simp only [hseq]
    obtain ⟨t0, ht0, htid0, hact0⟩ := hact
    have hfind : findTicket db tid = some t0 := by
      show db.tickets.find? (fun t => t.ticketId = tid) = some t0
      exact find?_eq_of_nodup_mem (fun t : Ticket => t.ticketId) db.tickets hndT t0 ht0
        tid htid0
    have hft : findTicket ((verifyPost db now (some tid) none none none v).2) tid =
        findTicket (markUsedUpdateMany db tid now).2 tid := by
      apply findTicket_congr
      rw [h1]
    rw [hft, findTicket_markUsed, hfind]
    exact ⟨_, rfl, by simp [hact0], by simp [hact0]⟩

end Parchii

namespace Parchii

/-- C4: the QR codec round-trip. For a nonempty event id, a positive ticket
number, an asset key of length at least 8 and a positive timestamp, decoding
the generated QR string succeeds and returns exactly the object
`v:1, e:eventId, t:n, a:assetId[0:8], ts:ts, c:checksum`, where the checksum
is the one computed at encode time and consists of 4 hex characters. -/
theorem c4_roundtrip (eventId assetPubkey : String) (n ts : Nat)
    (he : eventId.data ≠ []) (hn : 0 < n) (ha : 8 ≤ assetPubkey.data.length)
    (hts : 0 < ts) :
    parseQRCode (generateTicketQR eventId n assetPubkey ts) =
      .ok (payloadJson eventId.data n (assetPubkey.data.take 8) ts
        (calculateChecksum eventId (n : Int) assetPubkey (ts : Int)).data) ∧
    (calculateChecksum eventId (n : Int) assetPubkey (ts : Int)).data.length = 4 ∧
    ∀ ch ∈ (calculateChecksum eventId (n : Int) assetPubkey (ts : Int)).data,
      ch ∈ hexChars := by
  refine ⟨?_, (checksum_shape _ _ _ _).1, (checksum_shape _ _ _ _).2⟩
  refine parseQR_generate eventId assetPubkey n ts he hn ?_ hts
  intro hcon
  rw [hcon] at ha
  simp at ha

/-- C4 witness: the round-trip at a concrete event, ticket number, asset key
and timestamp. -/
theorem c4_roundtrip_witness :
    (("E1" : String).data ≠ [] ∧ 0 < 3 ∧ 8 ≤ ("AAAAAAAA" : String).data.length ∧
      0 < 5) ∧
    (parseQRCode (generateTicketQR "E1" 3 "AAAAAAAA" 5) =
      .ok (payloadJson ("E1" : String).data 3 (("AAAAAAAA" : String).data.take 8) 5
        (calculateChecksum "E1" (3 : Int) "AAAAAAAA" (5 : Int)).data) ∧
    (calculateChecksum "E1" (3 : Int) "AAAAAAAA" (5 : Int)).data.length = 4 ∧
    ∀ ch ∈ (calculateChecksum "E1" (3 : Int) "AAAAAAAA" (5 : Int)).data,
      ch ∈ hexChars) :=
  ⟨⟨by decide, by decide, by decide, by decide⟩,
   c4_roundtrip "E1" "AAAAAAAA" 3 5 (by decide) (by decide) (by decide) (by decide)⟩

/-- C9: the scan phase never mutates ticket state: one scan call, and any
sequence of scan calls, leave the ticket table (status and usedAt of every
row included) exactly as it was. -/
theorem c9_scan_preserves_tickets (db : DB) (calls : List ScanCall) (now : Int)
    (q s g : Option String) (v : String) :
    (applyScans db calls).tickets = db.tickets ∧
    ((scanPost db now q s g v).2).tickets = db.tickets :=
  ⟨applyScans_tickets_eq calls db, scanPost_tickets_eq db now q s g v⟩

/-- C1 witness: two verify calls on a concrete one-ticket database — one ok,
one already_redeemed_or_invalid, ticket ends USED. -/
theorem c1_verify_at_most_once_witness :
    ("T1" ≠ "" ∧ (c1db.tickets.map (fun t => t.ticketId)).Nodup ∧
      (∃ t ∈ c1db.tickets, t.ticketId = "T1" ∧ t.status = .ACTIVE) ∧
      (["V1", "V2"] : List String) ≠ []) ∧
    (((verifySeq c1db 0 "T1" ["V1", "V2"]).1.countP isOkV = 1) ∧
     (∀ r ∈ (verifySeq c1db 0 "T1" ["V1", "V2"]).1, isOkV r = false →
        r = .error .alreadyRedeemed) ∧
     (∃ tk, findTicket (verifySeq c1db 0 "T1" ["V1", "V2"]).2 "T1" = some tk ∧
        tk.status = .USED ∧ tk.usedAt = some 0)) :=
  ⟨⟨by decide, by decide, by decide, by decide⟩,
   c1_verify_at_most_once c1db 0 "T1" ["V1", "V2"] (by decide) (by decide) (by decide)
     (by decide)⟩

/-- C2 witness: the amended statement at the concrete database of the
counterexample. -/
theorem c2_reverify_by_id_fails_witness :
    ("X" ≠ "" ∧ (verifyPost c2db 5 none (some "X") none none "NV1").1 =
        .ok ⟨"T", "X", "updated"⟩) ∧
    verifyPost (verifyPost c2db 5 none (some "X") none none "NV1").2 6 none (some "X")
        none none "NV2" =
      (.error .alreadyRedeemed, (verifyPost c2db 5 none (some "X") none none "NV1").2) :=
  ⟨⟨by decide, rfl⟩,
   c2_reverify_by_id_fails c2db 5 6 none none none none none "X" "NV1" "NV2"
     ⟨"T", "X", "updated"⟩ (by decide) rfl⟩

/-- C3 witness: atomicity at the concrete one-ticket database. -/
theorem c3_verify_atomic_witness :
    ((c2db.tickets.map (fun t => t.ticketId)).Nodup ∧
     (c2db.verifications.map (fun g => g.verificationId)).Nodup ∧
     findVerification c2db "NV" = none ∧ TicketInv c2db) ∧
    ((∀ e, (verifyPost c2db 7 (some "T") none none none "NV").1 = .error e →
        (verifyPost c2db 7 (some "T") none none none "NV").2 = c2db)
     ∧ (∀ out, (verifyPost c2db 7 (some "T") none none none "NV").1 = .ok out →
        (∃ tk, findTicket (verifyPost c2db 7 (some "T") none none none "NV").2
            out.ticketId = some tk ∧ tk.status = .USED ∧ tk.usedAt = some 7)
        ∧ (∃ gv, findVerification (verifyPost c2db 7 (some "T") none none none "NV").2
            out.verificationId = some gv ∧ gv.status = .VERIFIED ∧
            gv.ticketId = out.ticketId))
     ∧ TicketInv (verifyPost c2db 7 (some "T") none none none "NV").2) :=
  ⟨⟨by decide, by decide, rfl, by unfold TicketInv; decide⟩,
   c3_verify_atomic c2db 7 (some "T") none none none "NV" (by decide) (by decide) rfl
     (by unfold TicketInv; decide)⟩

/-- C5 witness: the amended equivalences at a concrete fresh payload. -/
theorem c5_integrity_order_witness :
    ((10 : Int) - c5payload.ts ≤ 365 * 24 * 60 * 60) ∧
    ((validateQRIntegrity c5payload "AAAAAAAAB" 10 = .error .tampered ↔
       c5payload.c ≠ calculateChecksum c5payload.e c5payload.t "AAAAAAAAB" c5payload.ts)
     ∧ (c5payload.c = calculateChecksum c5payload.e c5payload.t "AAAAAAAAB" c5payload.ts →
        (validateQRIntegrity c5payload "AAAAAAAAB" 10 = .error .assetMismatch ↔
          ¬ c5payload.a.data.isPrefixOf ("AAAAAAAAB" : String).data = true))
     ∧ (c5payload.c = calculateChecksum c5payload.e c5payload.t "AAAAAAAAB" c5payload.ts →
        c5payload.a.data.isPrefixOf ("AAAAAAAAB" : String).data = true →
        validateQRIntegrity c5payload "AAAAAAAAB" 10 = .ok ())) :=
  ⟨by decide, c5_integrity_order c5payload "AAAAAAAAB" 10 (by decide)⟩

/-- C7 witness: the amended statement at the concrete two-ticket database. -/
theorem c7_lookup_ignores_ticket_number_witness :
    (otruthy (some (Json.jnum 1)) = true ∧ otruthy (some (Json.jnum 2)) = true ∧
      ("E" : String).data ≠ [] ∧ ("BBBB2222" : String).data ≠ []) ∧
    ((byQrPost c7db (some (.jstr ("E" : String).data)) (some (.jnum 1))
        (some (.jstr ("BBBB2222" : String).data)) =
      byQrPost c7db (some (.jstr ("E" : String).data)) (some (.jnum 2))
        (some (.jstr ("BBBB2222" : String).data)))
     ∧ (byQrPost c7db (some (.jstr ("E" : String).data)) (some (.jnum 1))
          (some (.jstr ("BBBB2222" : String).data)) = .error .notFound ↔
        ∀ t ∈ c7db.tickets, ¬(t.eventId.data = ("E" : String).data ∧
          t.mintPubkey.any (fun m => ("BBBB2222" : String).data.isPrefixOf m.data) = true))
     ∧ (∀ t, byQrPost c7db (some (.jstr ("E" : String).data)) (some (.jnum 1))
          (some (.jstr ("BBBB2222" : String).data)) = .ok t →
        t ∈ c7db.tickets ∧ t.eventId.data = ("E" : String).data ∧
          ∃ m, t.mintPubkey = some m ∧
            ("BBBB2222" : String).data.isPrefixOf m.data = true)) :=
  ⟨⟨by decide, by decide, by decide, by decide⟩,
   c7_lookup_ignores_ticket_number c7db ("E" : String).data ("BBBB2222" : String).data
     (some (.jnum 1)) (some (.jnum 2)) (by decide) (by decide) (by decide) (by decide)⟩

/-- C8 witness: the error-order case analysis at the concrete database. -/
theorem c8_verify_error_order_witness :
    ("T" ≠ "") ∧
    ((verifyPost c2db 0 none none none none "NV" = (.error .missingIds, c2db))
     ∧ (strTruthy (none : Option String) = true →
        findVerification c2db ((none : Option String).getD "") = none →
        verifyPost c2db 0 none none none none "NV" = (.error .verificationNotFound, c2db))
     ∧ ((∀ t ∈ c2db.tickets, t.ticketId = "T" → t.status ≠ .ACTIVE) →
        verifyPost c2db 0 (some "T") none none none "NV" = (.error .alreadyRedeemed, c2db))
     ∧ ((∃ t ∈ c2db.tickets, t.ticketId = "T" ∧ t.status = .ACTIVE) →
        strTruthy (none : Option String) = true →
        findVerification c2db ((none : Option String).getD "") = none →
        verifyPost c2db 0 (some "T") none none none "NV" =
          (.error .verificationNotFound, c2db))
     ∧ (∀ existing, (∃ t ∈ c2db.tickets, t.ticketId = "T" ∧ t.status = .ACTIVE) →
        strTruthy (none : Option String) = true →
        findVerification c2db ((none : Option String).getD "") = some existing →
        existing.ticketId ≠ "T" →
        verifyPost c2db 0 (some "T") none none none "NV" =
          (.error .verificationTicketMismatch, c2db))
     ∧ (∀ existing, (∃ t ∈ c2db.tickets, t.ticketId = "T" ∧ t.status = .ACTIVE) →
        strTruthy (none : Option String) = true →
        findVerification c2db ((none : Option String).getD "") = some existing →
        existing.ticketId = "T" →
        (verifyPost c2db 0 (some "T") none none none "NV").1 =
          .ok ⟨"T", (none : Option String).getD "", "updated"⟩)) :=
  ⟨by decide, c8_verify_error_order c2db 0 none none none "NV" "T" (by decide)⟩

end Parchii
